import Mathlib

/-!
Verification of the OID4VCI / SIOP-OID4VP core against its design
specification.  The development shallowly embeds the repository's
TypeScript sources:

* `packages/siop-oid4vp/lib/types/JwtVerifier.ts` — trust-verifier
  resolution (`getDidJwtVerifier`, `getX5cVerifier`, `getJwkVerifier`,
  `getJwtVerifierWithContext`, `getRequestObjectJwtVerifier`);
* `packages/issuer/lib/functions/CredentialOfferUtils.ts` — credential
  offer construction, URI serialization and PIN validation;
* `packages/common/lib/functions/CredentialRequestUtil.ts` — version
  down-conversion of credential requests;
* the in-memory credential-offer state manager (source absent from the
  sample; modelled from the spec and its test file).

JavaScript runtime values are modelled by `JsonValue` (with an explicit
`undefined` for JavaScript's `undefined`), and the JS notions of truthiness,
`typeof`, and property access are embedded explicitly so that the
decision logic of the source is reproduced faithfully, including its
`typeof null == "object"` behaviour.  External helpers that the sampled
sources import but that are not part of the sample (thumbprint
computation, nested-JWT parsing, format mapping) are taken as explicit
function parameters, so every theorem quantifies over their behaviour.
-/

namespace OID4VCI

/-- Model of a JavaScript runtime value (JSON values plus `undefined`).
Numbers are restricted to integers, which covers every numeric value the
verified code paths construct or inspect. -/
inductive JsonValue where
  | undefined : JsonValue
  | null : JsonValue
  | bool (b : Bool) : JsonValue
  | num (n : Int) : JsonValue
  | str (s : String) : JsonValue
  | arr (xs : List JsonValue) : JsonValue
  | obj (fields : List (String × JsonValue)) : JsonValue

/-- JavaScript truthiness of a value: `undefined`, `null`, `false`, `0`
and `""` are falsy; every array and object (even empty) is truthy. -/
def JsonValue.truthy : JsonValue → Bool
  | .undefined => false
  | .null => false
  | .bool b => b
  | .num n => n != 0
  | .str s => s != ""
  | .arr _ => true
  | .obj _ => true

/-- JavaScript `typeof` of a value; note `typeof null` and `typeof` of an
array are both `"object"`. -/
def JsonValue.jsTypeof : JsonValue → String
  | .undefined => "undefined"
  | .null => "object"
  | .bool _ => "boolean"
  | .num _ => "number"
  | .str _ => "string"
  | .arr _ => "object"
  | .obj _ => "object"

/-- Field lookup in a record of JSON values; an absent key reads as
JavaScript `undefined`. -/
def jsGetField (fields : List (String × JsonValue)) (key : String) : JsonValue :=
  match fields.find? (fun kv => kv.1 == key) with
  | some kv => kv.2
  | none => .undefined

/-- Truthiness of an optional string valued field (JavaScript strings are
falsy exactly when empty, and an absent field is `undefined`). -/
def strTruthy : Option String → Bool
  | none => false
  | some s => s != ""

/-- Does the second character list start with the first? -/
def startsWithChars : List Char → List Char → Bool
  | [], _ => true
  | _ :: _, [] => false
  | p :: ps, c :: cs => p == c && startsWithChars ps cs

/-- JavaScript `String.prototype.startsWith`. -/
def jsStartsWith (s pat : String) : Bool :=
  startsWithChars pat.data s.data

/-- JavaScript `String.prototype.includes` with a single character. -/
def strContainsChar (s : String) (c : Char) : Bool :=
  s.data.any (fun x => x == c)

/-- Split at the first occurrence of a non-empty pattern: the part
before it and the part after it. -/
def splitFirst (pat : List Char) : List Char → Option (List Char × List Char)
  | [] => none
  | c :: cs =>
    if startsWithChars pat (c :: cs) then some ([], (c :: cs).drop pat.length)
    else
      match splitFirst pat cs with
      | some (pre0, post) => some (c :: pre0, post)
      | none => none

/-- JavaScript `String.prototype.replace` with a string pattern replaces
only the first occurrence; this mirrors `.replace(pat, "")`. -/
def replaceFirst (s pat : String) : String :=
  match splitFirst pat.data s.data with
  | some (pre0, post) => String.mk (pre0 ++ post)
  | none => s

/-- Substring containment test (JavaScript `String.prototype.includes`). -/
def containsSubstr (s pat : String) : Bool :=
  (splitFirst pat.data s.data).isSome

/-- All the pieces of a split, with explicit fuel (one unit per input
character always suffices for a non-empty separator). -/
def splitAllAux (pat : List Char) : Nat → List Char → List (List Char)
  | 0, s => [s]
  | fuel + 1, s =>
    match splitFirst pat s with
    | none => [s]
    | some (pre0, post) => pre0 :: splitAllAux pat fuel post

/-- JavaScript `String.prototype.split` with a non-empty string
separator. -/
def jsSplit (s pat : String) : List String :=
  (splitAllAux pat.data (s.data.length + 1) s.data).map String.mk

/-- Extract the element list of a value when it is an array whose entries
are all strings (the `Array.isArray` / `every string` check of the
source). -/
def asStringList : JsonValue → Option (List String)
  | .arr xs =>
    let rec go : List JsonValue → Option (List String)
      | [] => some []
      | .str s :: rest => (go rest).map (s :: ·)
      | _ => none
    go xs
  | _ => none

/-- The JWT types distinguished by the resolver (`JwtType` in
`jwtUtils`). -/
inductive JwtType where
  | idToken
  | requestObject
  | verifierAttestation
deriving DecidableEq

/-- Stable identifiers for the failure modes of the resolver, one per
`throw` site of `JwtVerifier.ts`.  `jsTypeError` stands for a raw
JavaScript `TypeError` raised by a property access on `null`, which is a
distinct outcome from every deliberate `Error` the source throws. -/
inductive SIOPError where
  | invalidJwtMissingKid
  | invalidJwtBadKid
  | invalidJwtMissingX5c
  | invalidJwtBadX5c
  | invalidJwtMissingJwk
  | invalidJwtBadJwk
  | invalidJwtMissingSubJwk
  | invalidThumbprintUri
  | thumbprintMismatch
  | clientIdMismatch
  | mustNotBeSigned
  | missingAttestationJwt
  | missingAttestationJwtTyp
  | badVerifierAttestation
  | badVerifierAttestationRedirectUris
  | invalidEntityIdSchemeClientId
  | invalidClientIdScheme
  | nestedJwtParseError
  | jsTypeError
deriving DecidableEq

/-- The resolved trust-verification descriptor (`JwtVerifier` union of
the source, with the `type` discriminator made explicit on every
variant). -/
inductive JwtVerifier where
  | did (type : JwtType) (didUrl : String)
  | x5c (type : JwtType) (chain : List String) (issuer : Option String)
  | jwk (type : JwtType) (jwk : JsonValue) (jwkThumbprint : Option String)
  | custom (type : JwtType)
  | openIdFederation (type : JwtType) (entityId : String)

/-- Header of a JWT as consumed by the resolver (`JwtHeader`): the typed
fields the source reads, with `x5c` and `jwk` kept as raw runtime values
because the source re-validates their shapes. -/
structure JwtHeaderM where
  kid : Option String := none
  x5c : Option JsonValue := none
  jwk : Option JsonValue := none
  jwt : Option String := none
  typ : Option String := none

/-- Payload of a JWT / request object as consumed by the resolver
(`JwtPayload` / `RequestObjectPayload`). -/
structure JwtPayloadM where
  iss : Option String := none
  sub_jwk : Option JsonValue := none
  client_id : String := ""
  client_id_scheme : Option String := none
  redirect_uri : Option String := none

/-- Result of parsing a nested attestation JWT (the shape `parseJWT`
returns: a header with a `typ` field and a payload record). -/
structure ParsedJwt where
  typ : Option String
  payload : List (String × JsonValue)

/-- Truthiness of an optional raw JSON value field. -/
def optTruthy : Option JsonValue → Bool
  | none => false
  | some v => v.truthy

/-- Embedding of `getDidJwtVerifier`: requires a truthy `kid` header that
contains a `#` fragment. -/
def getDidJwtVerifier (header : JwtHeaderM) (type : JwtType) :
    Except SIOPError JwtVerifier :=
  match header.kid with
  | none => .error .invalidJwtMissingKid
  | some kid =>
    if kid == "" then .error .invalidJwtMissingKid
    else if !(strContainsChar kid '#') then .error .invalidJwtBadKid
    else .ok (.did type kid)

/-- Embedding of `getX5cVerifier`: requires a truthy `x5c` header that is
a non-empty array of strings; the verifier carries the payload `iss`. -/
def getX5cVerifier (header : JwtHeaderM) (payload : JwtPayloadM) (type : JwtType) :
    Except SIOPError JwtVerifier :=
  match header.x5c with
  | none => .error .invalidJwtMissingX5c
  | some v =>
    if !v.truthy then .error .invalidJwtMissingX5c
    else
      match asStringList v with
      | some chain =>
        if chain.isEmpty then .error .invalidJwtBadX5c
        else .ok (.x5c type chain payload.iss)
      | none => .error .invalidJwtBadX5c

/-- Embedding of `getJwkVerifier`, parameterized over the imported
helpers `getDigestAlgorithmFromJwkThumbprintUri` (`digestAlg`, `none`
when the URI is not a valid thumbprint URI) and
`calculateJwkThumbprintUri` (`calcThumbprint`).  For an `id-token` it
requires a string `sub_jwk` claim and recomputes the thumbprint; other
token types skip the thumbprint check. -/
def getJwkVerifier (digestAlg : String → Option String)
    (calcThumbprint : JsonValue → String → String)
    (header : JwtHeaderM) (payload : JwtPayloadM) (type : JwtType) :
    Except SIOPError JwtVerifier :=
  match header.jwk with
  | none => .error .invalidJwtMissingJwk
  | some jwk =>
    if !jwk.truthy then .error .invalidJwtMissingJwk
    else if jwk.jsTypeof != "object" then .error .invalidJwtBadJwk
    else if type != JwtType.idToken then .ok (.jwk type jwk none)
    else
      match payload.sub_jwk with
      | some (.str thumbUri) =>
        match digestAlg thumbUri with
        | none => .error .invalidThumbprintUri
        | some alg =>
          if calcThumbprint jwk alg != thumbUri then .error .thumbprintMismatch
          else .ok (.jwk type jwk (some thumbUri))
      | _ => .error .invalidJwtMissingSubJwk

/-- Embedding of `getJwtVerifierWithContext` (auto-detection): a `kid`
starting with `did:` wins, then an `x5c` header, then a `jwk` header,
otherwise the `custom` verifier. -/
def getJwtVerifierWithContext (digestAlg : String → Option String)
    (calcThumbprint : JsonValue → String → String)
    (header : JwtHeaderM) (payload : JwtPayloadM) (type : JwtType) :
    Except SIOPError JwtVerifier :=
  if jsStartsWith (header.kid.getD "") "did:" && header.kid.isSome then
    getDidJwtVerifier header type
  else if optTruthy header.x5c then
    getX5cVerifier header payload type
  else if optTruthy header.jwk then
    getJwkVerifier digestAlg calcThumbprint header payload type
  else .ok (.custom type)

/-- JavaScript property access `v[key]` as the source performs it:
reading a property of `null` (or `undefined`) raises a `TypeError`;
a string key on an array or a primitive reads as `undefined`. -/
def jsGetProp : JsonValue → String → Except SIOPError JsonValue
  | .undefined, _ => .error .jsTypeError
  | .null, _ => .error .jsTypeError
  | .obj fs, key => .ok (jsGetField fs key)
  | _, _ => .ok .undefined

/-- Strict JavaScript equality `v === s` between a runtime value and a
string. -/
def jsEqString (v : JsonValue) (s : String) : Bool :=
  match v with
  | .str t => t == s
  | _ => false

/-- The fixed subtype string required of verifier attestations. -/
def verifierAttestationSubtype : String := "verifier-attestation+jwt"

/-- Embedding of the `verifier_attestation` branch of
`getRequestObjectJwtVerifier`: validates the nested attestation token's
header `typ`, `sub`, `iss`, `exp` and `cnf.jwk` claims, then the
optional `redirect_uris` allowlist, and returns the `Jwk` verifier built
from the nested `cnf.jwk`. -/
def validateVerifierAttestation (clientId : String) (redirectUri : Option String)
    (attestation : ParsedJwt) : Except SIOPError JwtVerifier := do
  let p := attestation.payload
  if attestation.typ != some verifierAttestationSubtype then
    throw .badVerifierAttestation
  else if !(jsEqString (jsGetField p "sub") clientId) then
    throw .badVerifierAttestation
  else if !((jsGetField p "iss").truthy && (jsGetField p "iss").jsTypeof == "string") then
    throw .badVerifierAttestation
  else if !((jsGetField p "exp").truthy && (jsGetField p "exp").jsTypeof == "number") then
    throw .badVerifierAttestation
  else if (jsGetField p "cnf").jsTypeof != "object" then
    throw .badVerifierAttestation
  else
    let cnfJwk ← jsGetProp (jsGetField p "cnf") "jwk"
    if cnfJwk.jsTypeof != "object" then
      throw .badVerifierAttestation
    else
      if (jsGetField p "redirect_uris").truthy then
        match asStringList (jsGetField p "redirect_uris") with
        | none => throw .badVerifierAttestationRedirectUris
        | some uris =>
          match redirectUri with
          | none => throw .badVerifierAttestationRedirectUris
          | some r =>
            if r == "" then throw .badVerifierAttestationRedirectUris
            else if !(uris.contains r) then throw .badVerifierAttestationRedirectUris
            else pure (.jwk .requestObject cnfJwk none)
      else pure (.jwk .requestObject cnfJwk none)

/-- Embedding of `getRequestObjectJwtVerifier`: dispatches on the
declared `client_id_scheme` of the request object's payload, falling
back to auto-detection when no scheme is declared.  The nested-JWT
helper `parseJWT` is passed explicitly (`none` models a parse throw). -/
def getRequestObjectJwtVerifier (digestAlg : String → Option String)
    (calcThumbprint : JsonValue → String → String)
    (parseNestedJwt : String → Option ParsedJwt)
    (header : JwtHeaderM) (payload : JwtPayloadM) (raw : String) :
    Except SIOPError JwtVerifier :=
  let type := JwtType.requestObject
  let clientId := payload.client_id
  if !(strTruthy payload.client_id_scheme) then
    getJwtVerifierWithContext digestAlg calcThumbprint header payload type
  else
    let scheme := payload.client_id_scheme.getD ""
    if scheme == "did" then getDidJwtVerifier header type
    else if scheme == "pre-registered" then
      getJwtVerifierWithContext digestAlg calcThumbprint header payload type
    else if scheme == "x509_san_dns" || scheme == "x509_san_uri" then
      getX5cVerifier header payload type
    else if scheme == "redirect_uri" then
      if strTruthy payload.redirect_uri && payload.redirect_uri != some clientId then
        .error .clientIdMismatch
      else if (jsSplit raw ".").length > 2 then
        .error .mustNotBeSigned
      else getJwtVerifierWithContext digestAlg calcThumbprint header payload type
    else if scheme == "verifier_attestation" then
      if !(strTruthy header.jwt) then .error .missingAttestationJwt
      else if header.typ != some verifierAttestationSubtype then
        .error .missingAttestationJwtTyp
      else
        match parseNestedJwt (header.jwt.getD "") with
        | none => .error .nestedJwtParseError
        | some attestation =>
          validateVerifierAttestation clientId payload.redirect_uri attestation
    else if scheme == "entity_id" then
      if !(jsStartsWith clientId "http") then .error .invalidEntityIdSchemeClientId
      else .ok (.openIdFederation type clientId)
    else .error .invalidClientIdScheme

/-- Transaction-code descriptor (`TxCode` of the common types). -/
structure TxCode where
  input_mode : Option String := none
  length : Option Int := none
  description : Option String := none
deriving DecidableEq

/-- The `authorization_code` grant record. -/
structure AuthorizationCodeGrant where
  issuer_state : Option String := none
deriving DecidableEq

/-- The `urn:ietf:params:oauth:grant-type:pre-authorized_code` grant
record (`code` is the wire field `pre-authorized_code`). -/
structure PreAuthorizedCodeGrant where
  code : String
  tx_code : Option TxCode := none
deriving DecidableEq

/-- The `grants` map of a credential offer.  The wire format has exactly
two possible keys: `authorization_code` and the pre-authorized-code URN;
`none` models an absent key. -/
structure Grants where
  authorization_code : Option AuthorizationCodeGrant := none
  preAuthorizedCode : Option PreAuthorizedCodeGrant := none
deriving DecidableEq

/-- A credential-offer payload (`CredentialOfferPayloadV1_0_13`),
restricted to the fields `createCredentialOfferObject` reads or writes. -/
structure CredentialOfferPayloadM where
  credential_issuer : Option String := none
  credential_configuration_ids : Option (List String) := none
  grants : Option Grants := none
deriving DecidableEq

/-- Issuer metadata (`CredentialIssuerMetadataOptsV1_0_13`), restricted
to the fields the offer factory reads;
`credential_configurations_supported` is kept as a key/value list so
that `Object.keys` is meaningful. -/
structure IssuerMetadataM where
  credential_issuer : Option String := none
  credential_configurations_supported : Option (List (String × JsonValue)) := none

/-- Options of `createCredentialOfferObject`. -/
structure OfferOpts where
  credentialOffer : Option CredentialOfferPayloadM := none
  credentialOfferUri : Option String := none
  scheme : Option String := none
  baseUri : Option String := none
  issuerState : Option String := none
  txCode : Option TxCode := none
  preAuthorizedCode : Option String := none

/-- Failure modes of the offer factory, one per `throw` site. -/
inductive OfferError where
  | missingSource
  | schemeBaseUriMismatch
  | missingBaseUri
  | missingConfigurations
  | missingBaseUriForUri
deriving DecidableEq

/-- Result record of `createCredentialOfferObject`. -/
structure OfferResult where
  credential_offer : CredentialOfferPayloadM
  credential_offer_uri : Option String
  scheme : String
  baseUri : String
  grants : Grants
deriving DecidableEq

/-- One pass of the grant-population block of
`createCredentialOfferObject` (the source contains this block twice in
sequence, verbatim): normalizes an absent `grants` to an empty map; a
truthy `preAuthorizedCode` option overwrites the pre-authorized-code
entry (keeping the rest of the map); otherwise, when no truthy
`authorization_code.issuer_state` exists, the whole `grants` map is
replaced by a sole `authorization_code` grant whose `issuer_state` is
the caller-supplied one or the fresh random identifier (`uuidv4`),
passed here as `freshId`. -/
def applyGrants (freshId : String) (opts : OfferOpts)
    (offer : CredentialOfferPayloadM) : CredentialOfferPayloadM :=
  let g := offer.grants.getD {}
  if strTruthy opts.preAuthorizedCode then
    { offer with grants :=
        (some ({ g with preAuthorizedCode := some ⟨opts.preAuthorizedCode.getD "", opts.txCode⟩ })) }
  else if !(strTruthy (g.authorization_code.bind AuthorizationCodeGrant.issuer_state)) then
    { offer with grants := some ⟨some ⟨some (opts.issuerState.getD freshId)⟩, none⟩ }
  else
    { offer with grants := some g }

/-- The base-URI fallback of `createCredentialOfferObject` when no
truthy `baseUri` option is given: an `http`-like scheme demands a truthy
issuer identifier in the metadata, which must start with
`scheme + "://"`; a non-`http` scheme falls back to the empty base. -/
def baseUriFromMetadata (scheme : String) (issuerMetadata : Option IssuerMetadataM) :
    Except OfferError String :=
  if jsStartsWith scheme "http" then
    match issuerMetadata.bind IssuerMetadataM.credential_issuer with
    | some ci =>
      if ci == "" then throw .missingBaseUri
      else if !(jsStartsWith ci (scheme ++ "://")) then throw .schemeBaseUriMismatch
      else pure ci
    | none => throw .missingBaseUri
  else pure ""

/-- The scheme derivation of `createCredentialOfferObject`: an explicit
`scheme` option (first `://` removed) wins, else the scheme segment of
the `baseUri` option, else the default deep-link scheme. -/
def offerScheme (opts : OfferOpts) : String :=
  match opts.scheme with
  | some s => replaceFirst s "://"
  | none =>
    match opts.baseUri with
    | some b => if containsSubstr b "://" then (jsSplit b "://").headD "" else "openid-credential-offer"
    | none => "openid-credential-offer"

/-- The base-URI derivation of `createCredentialOfferObject`: a truthy
`baseUri` option wins, else the metadata fallback. -/
def offerBaseUri0 (scheme : String) (issuerMetadata : Option IssuerMetadataM)
    (opts : OfferOpts) : Except OfferError String :=
  match opts.baseUri with
  | some b =>
    if b != "" then Except.ok b
    else baseUriFromMetadata scheme issuerMetadata
  | none => baseUriFromMetadata scheme issuerMetadata

/-- The payload selection of `createCredentialOfferObject`: a supplied
offer payload is shallow-copied verbatim, else one is synthesized from
the issuer metadata, requiring `credential_configurations_supported`. -/
def offerPayload (issuerMetadata : Option IssuerMetadataM) (opts : OfferOpts) :
    Except OfferError CredentialOfferPayloadM :=
  match opts.credentialOffer with
  | some co => Except.ok co
  | none =>
    match issuerMetadata.bind IssuerMetadataM.credential_configurations_supported with
    | none => Except.error OfferError.missingConfigurations
    | some configs =>
      Except.ok { credential_issuer := issuerMetadata.bind IssuerMetadataM.credential_issuer,
                  credential_configuration_ids := some (configs.map Prod.fst),
                  grants := none }

/-- Embedding of `createCredentialOfferObject`.  `freshId1` and
`freshId2` stand for the two potential `uuidv4()` calls of the
duplicated grant block. -/
def createCredentialOfferObject (freshId1 freshId2 : String)
    (issuerMetadata : Option IssuerMetadataM) (opts : OfferOpts) :
    Except OfferError OfferResult :=
  if issuerMetadata.isNone && opts.credentialOffer.isNone &&
      !(strTruthy opts.credentialOfferUri) then
    .error .missingSource
  else
    let scheme := offerScheme opts
    match offerBaseUri0 scheme issuerMetadata opts with
    | .error e => .error e
    | .ok baseUri0 =>
      let baseUri := replaceFirst baseUri0 (scheme ++ "://")
      let credential_offer_uri :=
        if strTruthy opts.credentialOfferUri then
          some (scheme ++ "://" ++ baseUri ++ "?credential_offer_uri=" ++ opts.credentialOfferUri.getD "")
        else none
      match offerPayload issuerMetadata opts with
      | .error e => .error e
      | .ok credential_offer =>
        let co1 := applyGrants freshId1 opts credential_offer
        let co2 := applyGrants freshId2 opts co1
        .ok { credential_offer := co2, credential_offer_uri := credential_offer_uri,
              scheme := scheme, baseUri := baseUri, grants := co2.grants.getD {} }

/-- Embedding of `assertValidPinNumber`'s regular expression
`/[0-9{,8}]/`: as a character class it matches any single character
among the digits, the two braces and the comma, so `test` succeeds as
soon as the string contains one such character. -/
def pinRegexTest (pin : String) : Bool :=
  pin.data.any (fun c => c.isDigit || c == Char.ofNat 123 || c == ',' || c == Char.ofNat 125)

/-- The dedicated PIN validation failure (`PIN_VALIDATION_ERROR`). -/
inductive PinError where
  | pinValidationError
deriving DecidableEq

/-- Embedding of `assertValidPinNumber`: throws the PIN validation error
for a truthy pin that fails the regular-expression test. -/
def assertValidPinNumber (pin : Option String) : Except PinError Unit :=
  if strTruthy pin && !(pinRegexTest (pin.getD "")) then
    .error .pinValidationError
  else .ok ()

/-- The transaction-code contract the specification states: a digit-only
string of at most 8 characters. -/
def isIntendedValidPin (s : String) : Bool :=
  s.data.all Char.isDigit && s.length ≤ 8

/-- Modelled from the spec: a credential-offer session of the session
store (`CredentialOfferSession` built by `CredentialOfferStateBuilder`
in the test file); `createdOn` is the caller-supplied creation timestamp
in milliseconds and `payload` the stored offer object.  The store
implementation itself (`MemoryCredentialOfferStateManager`) is not part
of the source sample; only its test is. -/
structure SessionM where
  createdOn : Nat
  payload : CredentialOfferPayloadM := {}
deriving DecidableEq

/-- Modelled from the spec: the keyed in-memory session store
(`MemoryCredentialOfferStateManager`), as an association list from state
identifiers to sessions with at most one entry per key. -/
def StateStore : Type := List (String × SessionM)

/-- Modelled from the spec: `setState(id, session)` inserts or replaces
the entry for `id`. -/
def setState (store : StateStore) (id : String) (session : SessionM) : StateStore :=
  (id, session) :: (store.filter (fun kv => kv.1 != id))

/-- Modelled from the spec: `getState(id)` returns the stored session or
an explicit absence. -/
def getState (store : StateStore) (id : String) : Option SessionM :=
  (store.find? (fun kv => kv.1 == id)).map Prod.snd

/-- Modelled from the spec: `hasState(id)`. -/
def hasState (store : StateStore) (id : String) : Bool :=
  (getState store id).isSome

/-- Modelled from the spec: `deleteState(id)` removes the entry and
reports whether one existed. -/
def deleteState (store : StateStore) (id : String) : Bool × StateStore :=
  (hasState store id, store.filter (fun kv => kv.1 != id))

/-- Modelled from the spec: `clearExpiredStates(timestamp)`.  The spec's
`created_at + ttl <= now` wording is inconsistent with its own test
scenario (and with the repository's test
`MemoryCredentialOfferStateManager.spec.ts`, which expects a session
created "today" to be swept by `clearExpiredStates(now + 10s)` while a
session created one day later survives); the behaviour both pin down is
a creation-time cutoff: every session with `createdOn < timestamp` is
removed, with no time-to-live involved. -/
def clearExpiredStates (store : StateStore) (timestamp : Nat) : StateStore :=
  store.filter (fun kv => !(kv.2.createdOn < timestamp))

/-- Modelled from the spec: `clearAllStates()`. -/
def clearAllStates (_store : StateStore) : StateStore := []

/-- The protocol versions the conversion in `CredentialRequestUtil.ts`
distinguishes (`OpenId4VCIVersion`). -/
inductive OpenId4VCIVersion where
  | ver_1_0_08
  | ver_1_0_11
  | ver_1_0_13
deriving DecidableEq

/-- A uniform credential request (`UniformCredentialRequest`),
restricted to the fields `CredentialRequestUtil.ts` reads: the format
discriminator, the `types` array of the `jwt_vc_json` / `jwt_vc`
variants, the `credential_definition` of the JSON-LD and SD-JWT
variants, and the (opaque) proof. -/
structure UniformCredentialRequestM where
  format : String
  types : List String := []
  credential_definition_types : List String := []
  credential_definition_vct : String := ""
  proof : Option String := none
deriving DecidableEq

/-- The draft-8 request shape (`CredentialRequestV1_0_08`); `type` is
`types[0]` of the filtered list, hence `none` models JavaScript
`undefined` when that list is empty. -/
structure CredentialRequestV1_0_08M where
  format : String
  proof : Option String
  type : Option String
deriving DecidableEq

/-- Embedding of `getTypesFromRequest`: extracts the type list according
to the format, fails when it is empty, and optionally filters out
`VerifiableCredential`. -/
def getTypesFromRequest (req : UniformCredentialRequestM)
    (filterVerifiableCredential : Bool) : Except String (List String) :=
  let types :=
    if req.format == "jwt_vc_json" || req.format == "jwt_vc" then req.types
    else if req.format == "jwt_vc_json-ld" || req.format == "ldp_vc" then
      req.credential_definition_types
    else if req.format == "vc+sd-jwt" then [req.credential_definition_vct]
    else []
  if types.isEmpty then .error "Could not deduce types from credential request"
  else if filterVerifiableCredential then
    .ok (types.filter (fun t => t != "VerifiableCredential"))
  else .ok types

/-- Embedding of `getCredentialRequestForVersion`, parameterized over
the imported `getFormatForVersion` helper (`formatFor`).  For draft 8 it
filters `VerifiableCredential` out of the types and places the first
remaining type (or `undefined`) in the `type` field; any other version
returns the request unchanged. -/
def getCredentialRequestForVersion (formatFor : String → OpenId4VCIVersion → String)
    (req : UniformCredentialRequestM) (version : OpenId4VCIVersion) :
    Except String (UniformCredentialRequestM ⊕ CredentialRequestV1_0_08M) :=
  if version = OpenId4VCIVersion.ver_1_0_08 then do
    let types ← getTypesFromRequest req true
    pure (Sum.inr ⟨formatFor req.format version, req.proof, types.head?⟩)
  else pure (Sum.inl req)

/-- Uppercase hexadecimal digit (used by `encodeURIComponent`). -/
def hexDigitUpper (n : Nat) : Char :=
  if n < 10 then Char.ofNat (48 + n) else Char.ofNat (55 + n)

/-- Lowercase hexadecimal digit (used by `JSON.stringify` control-char
escapes). -/
def hexDigitLower (n : Nat) : Char :=
  if n < 10 then Char.ofNat (48 + n) else Char.ofNat (87 + n)

/-- Value of a hexadecimal digit character, either case. -/
def hexCharVal (c : Char) : Option Nat :=
  if 48 ≤ c.toNat ∧ c.toNat ≤ 57 then some (c.toNat - 48)
  else if 65 ≤ c.toNat ∧ c.toNat ≤ 70 then some (c.toNat - 55)
  else if 97 ≤ c.toNat ∧ c.toNat ≤ 102 then some (c.toNat - 87)
  else none

/-- UTF-8 encoding of a Unicode code point as a byte list. -/
def utf8EncodeChar (n : Nat) : List Nat :=
  if n < 128 then [n]
  else if n < 2048 then [192 + n / 64, 128 + n % 64]
  else if n < 65536 then [224 + n / 4096, 128 + (n / 64) % 64, 128 + n % 64]
  else [240 + n / 262144, 128 + (n / 4096) % 64, 128 + (n / 64) % 64, 128 + n % 64]

/-- Decode the two-byte UTF-8 sequence continuation. -/
def utf8Two (b : Nat) : List Nat → Option (Nat × List Nat)
  | b1 :: bs1 =>
    if 128 ≤ b1 ∧ b1 < 192 then some ((b - 192) * 64 + (b1 - 128), bs1) else none
  | [] => none

/-- Decode the three-byte UTF-8 sequence continuation (rejecting
overlong forms and surrogates). -/
def utf8Three (b : Nat) : List Nat → Option (Nat × List Nat)
  | b1 :: b2 :: bs2 =>
    if 128 ≤ b1 ∧ b1 < 192 ∧ 128 ≤ b2 ∧ b2 < 192 then
      let n := (b - 224) * 4096 + (b1 - 128) * 64 + (b2 - 128)
      if 2048 ≤ n ∧ (n < 55296 ∨ 57344 ≤ n) then some (n, bs2) else none
    else none
  | _ => none

/-- Decode the four-byte UTF-8 sequence continuation. -/
def utf8Four (b : Nat) : List Nat → Option (Nat × List Nat)
  | b1 :: b2 :: b3 :: bs3 =>
    if 128 ≤ b1 ∧ b1 < 192 ∧ 128 ≤ b2 ∧ b2 < 192 ∧ 128 ≤ b3 ∧ b3 < 192 then
      let n := (b - 240) * 262144 + (b1 - 128) * 4096 + (b2 - 128) * 64 + (b3 - 128)
      if 65536 ≤ n ∧ n < 1114112 then some (n, bs3) else none
    else none
  | _ => none

/-- Decode one UTF-8 encoded code point from the front of a byte
list. -/
def utf8DecodeOne : List Nat → Option (Nat × List Nat)
  | [] => none
  | b :: bs =>
    if b < 128 then some (b, bs)
    else if 194 ≤ b ∧ b < 224 then utf8Two b bs
    else if 224 ≤ b ∧ b < 240 then utf8Three b bs
    else if 240 ≤ b ∧ b < 245 then utf8Four b bs
    else none

theorem utf8Two_length {b : Nat} {l : List Nat} {n : Nat} {rest : List Nat}
    (h : utf8Two b l = some (n, rest)) : rest.length < l.length := by
  match l with
  | [] => simp [utf8Two] at h
  | b1 :: bs1 =>
    rw [utf8Two] at h
    split at h
    · simp only [Option.some.injEq, Prod.mk.injEq] at h
      simp [← h.2]
    · exact absurd h (by simp)

theorem utf8Three_length {b : Nat} {l : List Nat} {n : Nat} {rest : List Nat}
    (h : utf8Three b l = some (n, rest)) : rest.length < l.length := by
  match l with
  | [] => simp [utf8Three] at h
  | [b1] => simp [utf8Three] at h
  | b1 :: b2 :: bs2 =>
    rw [utf8Three] at h
    split at h
    · dsimp only at h
      split at h
      · simp only [Option.some.injEq, Prod.mk.injEq] at h
        simp [← h.2]
        omega
      · exact absurd h (by simp)
    · exact absurd h (by simp)

theorem utf8Four_length {b : Nat} {l : List Nat} {n : Nat} {rest : List Nat}
    (h : utf8Four b l = some (n, rest)) : rest.length < l.length := by
  match l with
  | [] => simp [utf8Four] at h
  | [b1] => simp [utf8Four] at h
  | [b1, b2] => simp [utf8Four] at h
  | b1 :: b2 :: b3 :: bs3 =>
    rw [utf8Four] at h
    split at h
    · dsimp only at h
      split at h
      · simp only [Option.some.injEq, Prod.mk.injEq] at h
        simp [← h.2]
        omega
      · exact absurd h (by simp)
    · exact absurd h (by simp)

theorem utf8DecodeOne_length {l : List Nat} {n : Nat} {rest : List Nat}
    (h : utf8DecodeOne l = some (n, rest)) : rest.length < l.length := by
  match l with
  | [] => simp [utf8DecodeOne] at h
  | b :: bs =>
    rw [utf8DecodeOne] at h
    split at h
    · simp only [Option.some.injEq, Prod.mk.injEq] at h
      simp [← h.2]
    · split at h
      · exact Nat.lt_trans (utf8Two_length h) (by simp)
      · split at h
        · exact Nat.lt_trans (utf8Three_length h) (by simp)
        · split at h
          · exact Nat.lt_trans (utf8Four_length h) (by simp)
          · exact absurd h (by simp)

/-- Strict UTF-8 decoding of a byte list. -/
def utf8Decode (l : List Nat) : Option (List Char) :=
  match hl : utf8DecodeOne l with
  | none => if l.isEmpty then some [] else none
  | some (n, rest) => (utf8Decode rest).map (Char.ofNat n :: ·)
termination_by l.length
decreasing_by exact utf8DecodeOne_length hl

/-- The characters `encodeURIComponent` leaves unescaped (letters,
digits, and `- _ . ! ~ * ( )` together with the apostrophe, code point
39). -/
def isUriUnreserved (c : Char) : Bool :=
  c.isAlpha || c.isDigit || c == '-' || c == '_' || c == '.' || c == '!' ||
    c == '~' || c == '*' || c.toNat == 39 || c == '(' || c == ')'

/-- Percent-encoding of one byte, with uppercase hex as JavaScript
produces. -/
def percentEncodeByte (b : Nat) : List Char :=
  ['%', hexDigitUpper (b / 16), hexDigitUpper (b % 16)]

/-- Encoding of one character as `encodeURIComponent` renders it:
unreserved characters stand for themselves, every other character
contributes the percent-encoding of its UTF-8 bytes. -/
def encodeChar (c : Char) : List Char :=
  if isUriUnreserved c then [c]
  else ((utf8EncodeChar c.toNat).map percentEncodeByte).flatten

/-- Modelled from the spec: the JavaScript built-in
`encodeURIComponent`, which the serializer applies to the JSON text of
the offer payload. -/
def encodeURIComponent (s : String) : String :=
  String.mk ((s.data.map encodeChar).flatten)

/-- Percent-decoding into UTF-8 bytes: a `%XY` triple contributes the
byte `XY`; a literal character contributes its own UTF-8 bytes. -/
def percentDecode : List Char → Option (List Nat)
  | [] => some []
  | c :: cs =>
    if c == '%' then
      match cs with
      | h1 :: h2 :: cs2 =>
        match hexCharVal h1, hexCharVal h2 with
        | some a, some b => (percentDecode cs2).map ((16 * a + b) :: ·)
        | _, _ => none
      | _ => none
    else (percentDecode cs).map (fun bs => utf8EncodeChar c.toNat ++ bs)

/-- Modelled from the spec: the JavaScript built-in
`decodeURIComponent` (percent-decoding followed by UTF-8 decoding;
`none` models the `URIError` throw on malformed input). -/
def decodeURIComponent (s : String) : Option String :=
  (percentDecode s.data).bind (fun bs => (utf8Decode bs).map String.mk)

/-- Decimal digits of a natural number, most significant first,
prepended to an accumulator. -/
def natDigitsAux : Nat → List Char → List Char
  | 0, acc => acc
  | n + 1, acc => natDigitsAux ((n + 1) / 10) (Char.ofNat (48 + (n + 1) % 10) :: acc)
termination_by n _ => n
decreasing_by omega

/-- Decimal rendering of a natural number. -/
def natToChars (n : Nat) : List Char :=
  if n = 0 then [Char.ofNat 48] else natDigitsAux n []

/-- Decimal rendering of an integer (JSON number syntax for
integers). -/
def intToChars (i : Int) : List Char :=
  if i < 0 then '-' :: natToChars i.natAbs else natToChars i.natAbs

/-- Escape of one character inside a JSON string literal, as
`JSON.stringify` renders it: the quote and backslash get a backslash
escape, the named control characters get their short forms, the other
control characters a `\u00xx` escape, and everything else stands for
itself. -/
def escapeJsonChar (c : Char) : List Char :=
  if c.toNat = 34 then [Char.ofNat 92, Char.ofNat 34]
  else if c.toNat = 92 then [Char.ofNat 92, Char.ofNat 92]
  else if c.toNat = 8 then [Char.ofNat 92, 'b']
  else if c.toNat = 9 then [Char.ofNat 92, 't']
  else if c.toNat = 10 then [Char.ofNat 92, 'n']
  else if c.toNat = 12 then [Char.ofNat 92, 'f']
  else if c.toNat = 13 then [Char.ofNat 92, 'r']
  else if c.toNat < 32 then
    [Char.ofNat 92, 'u', Char.ofNat 48, Char.ofNat 48,
      hexDigitLower (c.toNat / 16), hexDigitLower (c.toNat % 16)]
  else [c]

/-- Body of a JSON string literal. -/
def escapeJsonString (cs : List Char) : List Char :=
  (cs.map escapeJsonChar).flatten

/-- A quoted JSON string literal. -/
def quoteJson (s : String) : List Char :=
  Char.ofNat 34 :: escapeJsonString s.data ++ [Char.ofNat 34]

mutual

/-- Modelled from the spec: the JavaScript built-in `JSON.stringify`
(compact form, keys in order), rendering to a character list.  An
`undefined` inside a structure is rendered as `null`; round-trip statements
therefore carry a `pureJson` hypothesis excluding `undefined`. -/
def stringifyV : JsonValue → List Char
  | .undefined => 'n' :: ['u', 'l', 'l']
  | .null => 'n' :: ['u', 'l', 'l']
  | .bool true => 't' :: ['r', 'u', 'e']
  | .bool false => 'f' :: ['a', 'l', 's', 'e']
  | .num i => intToChars i
  | .str s => quoteJson s
  | .arr xs => Char.ofNat 91 :: stringifyElems xs ++ [Char.ofNat 93]
  | .obj fs => Char.ofNat 123 :: stringifyMembers fs ++ [Char.ofNat 125]

/-- Comma-separated renderings of array elements. -/
def stringifyElems : List JsonValue → List Char
  | [] => []
  | [v] => stringifyV v
  | v :: vs => stringifyV v ++ ',' :: stringifyElems vs

/-- Comma-separated renderings of object members. -/
def stringifyMembers : List (String × JsonValue) → List Char
  | [] => []
  | [(k, v)] => quoteJson k ++ ':' :: stringifyV v
  | (k, v) :: fs => quoteJson k ++ ':' :: stringifyV v ++ ',' :: stringifyMembers fs

end

/-- The JSON text of a value. -/
def jsonStringify (v : JsonValue) : String :=
  String.mk (stringifyV v)

mutual

/-- A value free of JavaScript `undefined` (proper JSON). -/
def pureJson : JsonValue → Bool
  | .undefined => false
  | .null => true
  | .bool _ => true
  | .num _ => true
  | .str _ => true
  | .arr xs => pureJsonElems xs
  | .obj fs => pureJsonMembers fs

/-- All elements are proper JSON. -/
def pureJsonElems : List JsonValue → Bool
  | [] => true
  | v :: vs => pureJson v && pureJsonElems vs

/-- All member values are proper JSON. -/
def pureJsonMembers : List (String × JsonValue) → Bool
  | [] => true
  | (_, v) :: fs => pureJson v && pureJsonMembers fs

end

/-- Greedy decimal-digit consumption with an accumulator. -/
def parseDigitsAux : Nat → List Char → Nat × List Char
  | v, [] => (v, [])
  | v, c :: cs =>
    if c.isDigit then parseDigitsAux (10 * v + (c.toNat - 48)) cs else (v, c :: cs)

/-- The single-character JSON escapes (everything except `\u`). -/
def unescapeChar (e : Char) : Option Char :=
  if e.toNat = 34 then some (Char.ofNat 34)
  else if e.toNat = 92 then some (Char.ofNat 92)
  else if e = '/' then some '/'
  else if e = 'b' then some (Char.ofNat 8)
  else if e = 't' then some (Char.ofNat 9)
  else if e = 'n' then some (Char.ofNat 10)
  else if e = 'f' then some (Char.ofNat 12)
  else if e = 'r' then some (Char.ofNat 13)
  else none

/-- The character named by four hexadecimal digits (a `\u` escape body),
rejecting surrogate code points. -/
def hexFour (h1 h2 h3 h4 : Char) : Option Char :=
  match hexCharVal h1, hexCharVal h2, hexCharVal h3, hexCharVal h4 with
  | some a, some b, some c3, some d =>
    let n := ((a * 16 + b) * 16 + c3) * 16 + d
    if n < 55296 ∨ 57344 ≤ n then some (Char.ofNat n) else none
  | _, _, _, _ => none

/-- Body of a JSON string literal, after the opening quote: returns the
unescaped content and the input after the closing quote. -/
def parseJsonString : List Char → Option (List Char × List Char)
  | [] => none
  | c :: cs =>
    if c.toNat = 34 then some ([], cs)
    else if c.toNat = 92 then
      match cs with
      | [] => none
      | e :: cs1 =>
        if e = 'u' then
          match cs1 with
          | h1 :: h2 :: h3 :: h4 :: cs2 =>
            match hexFour h1 h2 h3 h4 with
            | some d => (parseJsonString cs2).map (fun p => (d :: p.1, p.2))
            | none => none
          | _ => none
        else
          match unescapeChar e with
          | some d => (parseJsonString cs1).map (fun p => (d :: p.1, p.2))
          | none => none
    else (parseJsonString cs).map (fun p => (c :: p.1, p.2))

/-- A JSON number (integer grammar). -/
def parseJsonNumber : List Char → Option (JsonValue × List Char)
  | [] => none
  | c :: cs =>
    if c = '-' then
      match cs with
      | d :: _ =>
        if d.isDigit then
          let p := parseDigitsAux 0 cs
          some (.num (-(p.1 : Int)), p.2)
        else none
      | [] => none
    else if c.isDigit then
      let p := parseDigitsAux 0 (c :: cs)
      some (.num (p.1 : Int), p.2)
    else none

/-- Fixed-text consumption: succeeds when the input starts with the
expected characters and returns the remainder. -/
def expectChars : List Char → List Char → Option (List Char)
  | [], cs => some cs
  | e :: es, c :: cs => if c = e then expectChars es cs else none
  | _ :: _, [] => none

/-- An object member key: an opening quote, the key string and the
member colon. -/
def parseMemberKey : List Char → Option (String × List Char)
  | [] => none
  | c :: cs =>
    if c.toNat = 34 then
      match parseJsonString cs with
      | some (key, c2 :: rest1) => if c2 = ':' then some (String.mk key, rest1) else none
      | _ => none
    else none

mutual

/-- Modelled from the spec: the JavaScript built-in `JSON.parse`,
restricted to the whitespace-free renderings `JSON.stringify` emits.
`fuel` bounds the recursion depth; the wrapper supplies one unit per
input character, which is always sufficient. -/
def parseJsonValue : Nat → List Char → Option (JsonValue × List Char)
  | 0, _ => none
  | _ + 1, [] => none
  | fuel + 1, c :: cs =>
    if c.toNat = 34 then
      (parseJsonString cs).map (fun p => (.str (String.mk p.1), p.2))
    else if c = 't' then
      (expectChars ['r', 'u', 'e'] cs).map (fun r => (.bool true, r))
    else if c = 'f' then
      (expectChars ['a', 'l', 's', 'e'] cs).map (fun r => (.bool false, r))
    else if c = 'n' then
      (expectChars ['u', 'l', 'l'] cs).map (fun r => (.null, r))
    else if c.toNat = 91 then
      match cs with
      | c1 :: cs1 =>
        if c1.toNat = 93 then some (.arr [], cs1)
        else (parseJsonElems fuel (c1 :: cs1)).map (fun p => (.arr p.1, p.2))
      | [] => none
    else if c.toNat = 123 then
      match cs with
      | c1 :: cs1 =>
        if c1.toNat = 125 then some (.obj [], cs1)
        else (parseJsonMembers fuel (c1 :: cs1)).map (fun p => (.obj p.1, p.2))
      | [] => none
    else parseJsonNumber (c :: cs)

/-- Array elements up to and including the closing bracket. -/
def parseJsonElems : Nat → List Char → Option (List JsonValue × List Char)
  | 0, _ => none
  | fuel + 1, cs =>
    match parseJsonValue fuel cs with
    | none => none
    | some (v, rest) =>
      match rest with
      | c :: rest1 =>
        if c = ',' then (parseJsonElems fuel rest1).map (fun p => (v :: p.1, p.2))
        else if c.toNat = 93 then some ([v], rest1)
        else none
      | [] => none

/-- Object members up to and including the closing brace. -/
def parseJsonMembers : Nat → List Char → Option (List (String × JsonValue) × List Char)
  | 0, _ => none
  | fuel + 1, cs =>
    match parseMemberKey cs with
    | none => none
    | some (key, rest1) =>
      match parseJsonValue fuel rest1 with
      | none => none
      | some (v, rest2) =>
        match rest2 with
        | c3 :: rest3 =>
          if c3 = ',' then
            (parseJsonMembers fuel rest3).map (fun p => ((key, v) :: p.1, p.2))
          else if c3.toNat = 125 then some ([(key, v)], rest3)
          else none
        | [] => none

end

/-- Full-input JSON parsing. -/
def jsonParse (s : String) : Option JsonValue :=
  match parseJsonValue (s.data.length + 1) s.data with
  | some (v, []) => some v
  | _ => none

/-- A continuation after a serialized JSON value that cannot be mistaken
for more of the value: empty, or starting with a separator or closing
bracket. -/
def restOk : List Char → Prop
  | [] => True
  | c :: _ => c = ',' ∨ c.toNat = 93 ∨ c.toNat = 125

/-- An input that does not begin with a decimal digit (so greedy digit
consumption stops in front of it). -/
def headNotDigit : List Char → Prop
  | [] => True
  | c :: _ => c.isDigit = false

/-- Number of decimal digits consumed by `natDigitsAux`. -/
def digitCount : Nat → Nat
  | 0 => 0
  | n + 1 => 1 + digitCount ((n + 1) / 10)
termination_by n => n
decreasing_by omega

/-- The positional weight of the digits of `m`. -/
def tenPow (m : Nat) : Nat := 10 ^ digitCount m

/-- Input record of `createCredentialOfferURIFromObject`
(`CredentialOfferV1_0_13` with the optional scheme/base-URI
decorations); the offer payload is kept as a raw JSON value since the
serializer only ever passes it to `JSON.stringify`. -/
structure OfferUriInput where
  credential_offer : Option JsonValue := none
  credential_offer_uri : Option String := none
  scheme : Option String := none
  baseUri : Option String := none

/-- Options of `createCredentialOfferURIFromObject`. -/
structure UriOpts where
  scheme : Option String := none
  baseUri : Option String := none

/-- Rendering of `JSON.stringify` under string interpolation: an absent
payload interpolates as the text `undefined`. -/
def jsonStringifyOpt : Option JsonValue → String
  | none => "undefined"
  | some v => jsonStringify v

/-- Embedding of `createCredentialOfferURIFromObject`. -/
def createCredentialOfferURIFromObject (offer : OfferUriInput) (opts : UriOpts) :
    Except OfferError String :=
  let scheme :=
    match opts.scheme with
    | some s => replaceFirst s "://"
    | none =>
      match offer.scheme with
      | some s => replaceFirst s "://"
      | none => "openid-credential-offer"
  let baseUri0 := (opts.baseUri.orElse (fun _ => offer.baseUri)).getD ""
  let baseUri :=
    if containsSubstr baseUri0 "://" then (jsSplit baseUri0 "://").getD 1 ""
    else baseUri0
  if jsStartsWith scheme "http" && baseUri == "" then .error .missingBaseUriForUri
  else if strTruthy offer.credential_offer_uri then
    let u := offer.credential_offer_uri.getD ""
    if containsSubstr u "credential_offer_uri=" then .ok u
    else .ok (scheme ++ "://" ++ baseUri ++ "?credential_offer_uri=" ++ u)
  else
    .ok (scheme ++ "://" ++ baseUri ++ "?credential_offer=" ++
      encodeURIComponent (jsonStringifyOpt offer.credential_offer))

/-! ### Characters, UTF-8 and percent encoding: auxiliary facts -/

theorem toNat_ofNat_valid {n : Nat} (h : Nat.isValidChar n) : (Char.ofNat n).toNat = n := by
  simp [Char.ofNat, Char.ofNatAux, Char.toNat, UInt32.toNat, h, BitVec.toNat_ofNatLt]

theorem hexCharVal_hexDigitUpper {d : Nat} (h : d < 16) :
    hexCharVal (hexDigitUpper d) = some d := by
  interval_cases d <;> decide

theorem hexCharVal_hexDigitLower {d : Nat} (h : d < 16) :
    hexCharVal (hexDigitLower d) = some d := by
  interval_cases d <;> decide

theorem utf8EncodeChar_lt_256 {n : Nat} (hn : n < 1114112) :
    ∀ b ∈ utf8EncodeChar n, b < 256 := by
  intro b hb
  unfold utf8EncodeChar at hb
  split at hb
  · simp only [List.mem_singleton] at hb; omega
  · split at hb
    · simp only [List.mem_cons, List.mem_singleton, List.not_mem_nil, or_false] at hb
      rcases hb with h | h <;> omega
    · split at hb
      · simp only [List.mem_cons, List.not_mem_nil, or_false] at hb
        rcases hb with h | h | h <;> omega
      · simp only [List.mem_cons, List.not_mem_nil, or_false] at hb
        rcases hb with h | h | h | h <;> omega

theorem utf8DecodeOne_encode (c : Char) (bs : List Nat) :
    utf8DecodeOne (utf8EncodeChar c.toNat ++ bs) = some (c.toNat, bs) := by
  have hval : Nat.isValidChar c.toNat := c.valid
  set n := c.toNat with hn
  have hrange : n < 55296 ∨ (57343 < n ∧ n < 1114112) := hval
  by_cases h1 : n < 128
  · rw [utf8EncodeChar, if_pos h1]
    simp only [List.cons_append, List.nil_append]
    rw [utf8DecodeOne.eq_def]
    dsimp only
    rw [if_pos h1]
  · by_cases h2 : n < 2048
    · rw [utf8EncodeChar, if_neg h1, if_pos h2]
      simp only [List.cons_append, List.nil_append]
      rw [utf8DecodeOne.eq_def]
      dsimp only
      rw [if_neg (by omega), if_pos (by omega : 194 ≤ 192 + n / 64 ∧ 192 + n / 64 < 224)]
      rw [utf8Two.eq_def]
      dsimp only
      rw [if_pos (by omega : 128 ≤ 128 + n % 64 ∧ 128 + n % 64 < 192)]
      have harith : (192 + n / 64 - 192) * 64 + (128 + n % 64 - 128) = n := by omega
      rw [harith]
    · by_cases h3 : n < 65536
      · rw [utf8EncodeChar, if_neg h1, if_neg h2, if_pos h3]
        simp only [List.cons_append, List.nil_append]
        rw [utf8DecodeOne.eq_def]
        dsimp only
        rw [if_neg (by omega),
          if_neg (by omega : ¬(194 ≤ 224 + n / 4096 ∧ 224 + n / 4096 < 224)),
          if_pos (by omega : 224 ≤ 224 + n / 4096 ∧ 224 + n / 4096 < 240)]
        rw [utf8Three.eq_def]
        dsimp only
        rw [if_pos (by omega :
          128 ≤ 128 + n / 64 % 64 ∧ 128 + n / 64 % 64 < 192 ∧
            128 ≤ 128 + n % 64 ∧ 128 + n % 64 < 192)]
        have harith : (224 + n / 4096 - 224) * 4096 + (128 + n / 64 % 64 - 128) * 64 +
            (128 + n % 64 - 128) = n := by omega
        rw [harith, if_pos (by omega : 2048 ≤ n ∧ (n < 55296 ∨ 57344 ≤ n))]
      · rw [utf8EncodeChar, if_neg h1, if_neg h2, if_neg h3]
        simp only [List.cons_append, List.nil_append]
        have hup : n < 1114112 := by omega
        rw [utf8DecodeOne.eq_def]
        dsimp only
        rw [if_neg (by omega),
          if_neg (by omega : ¬(194 ≤ 240 + n / 262144 ∧ 240 + n / 262144 < 224)),
          if_neg (by omega : ¬(224 ≤ 240 + n / 262144 ∧ 240 + n / 262144 < 240)),
          if_pos (by omega : 240 ≤ 240 + n / 262144 ∧ 240 + n / 262144 < 245)]
        rw [utf8Four.eq_def]
        dsimp only
        rw [if_pos (by omega :
          128 ≤ 128 + n / 4096 % 64 ∧ 128 + n / 4096 % 64 < 192 ∧
            128 ≤ 128 + n / 64 % 64 ∧ 128 + n / 64 % 64 < 192 ∧
            128 ≤ 128 + n % 64 ∧ 128 + n % 64 < 192)]
        have harith : (240 + n / 262144 - 240) * 262144 + (128 + n / 4096 % 64 - 128) * 4096 +
            (128 + n / 64 % 64 - 128) * 64 + (128 + n % 64 - 128) = n := by omega
        rw [harith, if_pos (by omega : 65536 ≤ n ∧ n < 1114112)]

theorem utf8Decode_encode (c : Char) (bs : List Nat) :
    utf8Decode (utf8EncodeChar c.toNat ++ bs) = (utf8Decode bs).map (c :: ·) := by
  rw [utf8Decode.eq_def]
  split
  · rename_i hl
    rw [utf8DecodeOne_encode] at hl
    exact absurd hl (by simp)
  · rename_i n rest hl
    rw [utf8DecodeOne_encode] at hl
    simp only [Option.some.injEq, Prod.mk.injEq] at hl
    obtain ⟨h1, h2⟩ := hl
    subst h1
    subst h2
    rw [Char.ofNat_toNat]

theorem char_toNat_lt_codepoints (c : Char) : c.toNat < 1114112 := by
  show c.val.toNat < 1114112
  rcases c.valid with h | ⟨h1, h2⟩ <;> omega

theorem percentDecode_bytes (bs : List Nat) (h : ∀ b ∈ bs, b < 256) (rest : List Char) :
    percentDecode ((bs.map percentEncodeByte).flatten ++ rest) =
      (percentDecode rest).map (fun t => bs ++ t) := by
  induction bs with
  | nil =>
    simp only [List.map_nil, List.flatten_nil, List.nil_append]
    cases percentDecode rest <;> simp
  | cons b bs ih =>
    have hb : b < 256 := h b (by simp)
    simp only [List.map_cons, List.flatten_cons, List.append_assoc]
    rw [percentEncodeByte]
    simp only [List.cons_append, List.nil_append]
    rw [percentDecode.eq_def]
    dsimp only
    rw [if_pos (by rfl)]
    rw [hexCharVal_hexDigitUpper (by omega : b / 16 < 16),
      hexCharVal_hexDigitUpper (by omega : b % 16 < 16)]
    dsimp only
    rw [ih (fun x hx => h x (by simp [hx]))]
    have harith : 16 * (b / 16) + b % 16 = b := by omega
    rw [harith]
    cases percentDecode rest <;> simp

theorem percentDecode_encodeChar (c : Char) (rest : List Char) :
    percentDecode (encodeChar c ++ rest) =
      (percentDecode rest).map (fun t => utf8EncodeChar c.toNat ++ t) := by
  rw [encodeChar]
  by_cases hu : isUriUnreserved c
  · rw [if_pos hu]
    simp only [List.cons_append, List.nil_append]
    rw [percentDecode.eq_def]
    dsimp only
    rw [if_neg ?hne]
    case hne =>
      intro hEq
      rw [beq_iff_eq] at hEq
      subst hEq
      exact absurd hu (by decide)
  · rw [if_neg hu]
    exact percentDecode_bytes _ (utf8EncodeChar_lt_256 (char_toNat_lt_codepoints c)) rest

theorem percentDecode_encodeAll (cs : List Char) :
    percentDecode ((cs.map encodeChar).flatten) =
      some ((cs.map (fun c => utf8EncodeChar c.toNat)).flatten) := by
  induction cs with
  | nil => rfl
  | cons c cs ih =>
    simp only [List.map_cons, List.flatten_cons]
    rw [percentDecode_encodeChar c, ih]
    rfl

theorem utf8Decode_nil : utf8Decode [] = some [] := by
  rw [utf8Decode.eq_def]
  rfl

theorem utf8Decode_encodeAll (cs : List Char) :
    utf8Decode ((cs.map (fun c => utf8EncodeChar c.toNat)).flatten) = some cs := by
  induction cs with
  | nil => exact utf8Decode_nil
  | cons c cs ih =>
    simp only [List.map_cons, List.flatten_cons]
    rw [utf8Decode_encode c, ih]
    rfl

theorem toNat_digitChar {k : Nat} (h : k < 10) : (Char.ofNat (48 + k)).toNat = 48 + k :=
  toNat_ofNat_valid (Or.inl (by omega))

theorem isDigit_digitChar {k : Nat} (h : k < 10) : (Char.ofNat (48 + k)).isDigit = true := by
  interval_cases k <;> decide

theorem toNat_of_isDigit {c : Char} (h : c.isDigit = true) :
    48 ≤ c.toNat ∧ c.toNat ≤ 57 := by
  simp only [Char.isDigit, Bool.and_eq_true, decide_eq_true_eq] at h
  obtain ⟨h1, h2⟩ := h
  exact ⟨h1, h2⟩

theorem natDigitsAux_append (m : Nat) : ∀ acc rest : List Char,
    natDigitsAux m acc ++ rest = natDigitsAux m (acc ++ rest) := by
  induction m using Nat.strongRecOn with
  | _ m ih =>
    intro acc rest
    match m with
    | 0 => simp only [natDigitsAux]
    | k + 1 =>
      rw [natDigitsAux, natDigitsAux]
      rw [ih ((k + 1) / 10) (Nat.div_lt_self (Nat.succ_pos k) (by omega))]
      rfl

theorem natDigitsAux_head (m : Nat) (hm : 0 < m) : ∀ acc : List Char,
    ∃ d t, natDigitsAux m acc = d :: t ∧ d.isDigit = true := by
  induction m using Nat.strongRecOn with
  | _ m ih =>
    intro acc
    match m with
    | k + 1 =>
      rw [natDigitsAux]
      by_cases hq : (k + 1) / 10 = 0
      · rw [hq, natDigitsAux]
        exact ⟨_, _, rfl, isDigit_digitChar (Nat.mod_lt _ (by omega))⟩
      · exact ih ((k + 1) / 10) (Nat.div_lt_self (Nat.succ_pos k) (by omega))
          (Nat.pos_of_ne_zero hq) _

theorem natToChars_head (n : Nat) :
    ∃ d t, natToChars n = d :: t ∧ d.isDigit = true := by
  rw [natToChars]
  by_cases hn : n = 0
  · rw [if_pos hn]
    exact ⟨_, _, rfl, by decide⟩
  · rw [if_neg hn]
    exact natDigitsAux_head n (Nat.pos_of_ne_zero hn) []

theorem parseDigitsAux_stop (v : Nat) {rest : List Char} (h : headNotDigit rest) :
    parseDigitsAux v rest = (v, rest) := by
  match rest with
  | [] => rfl
  | c :: cs =>
    rw [parseDigitsAux, if_neg]
    rw [headNotDigit] at h
    simp [h]

theorem parseDigitsAux_natDigitsAux (m : Nat) : ∀ (v : Nat) (rest : List Char),
    parseDigitsAux v (natDigitsAux m rest) = parseDigitsAux (v * tenPow m + m) rest := by
  induction m using Nat.strongRecOn with
  | _ m ih =>
    intro v rest
    match m with
    | 0 =>
      rw [natDigitsAux]
      have : v * tenPow 0 + 0 = v := by simp [tenPow, digitCount]
      rw [this]
    | k + 1 =>
      rw [natDigitsAux, ih ((k + 1) / 10) (Nat.div_lt_self (Nat.succ_pos k) (by omega))]
      rw [parseDigitsAux, if_pos (isDigit_digitChar (Nat.mod_lt _ (by omega)))]
      congr 1
      rw [toNat_digitChar (Nat.mod_lt _ (by omega))]
      have hpow : tenPow (k + 1) = 10 * tenPow ((k + 1) / 10) := by
        rw [tenPow, tenPow, digitCount]
        rw [pow_add]
        ring
      rw [hpow]
      have hqr : 10 * ((k + 1) / 10) + (k + 1) % 10 = k + 1 := by omega
      have hsub : 48 + (k + 1) % 10 - 48 = (k + 1) % 10 := by omega
      rw [hsub]
      calc 10 * (v * tenPow ((k + 1) / 10) + (k + 1) / 10) + (k + 1) % 10
          = v * (10 * tenPow ((k + 1) / 10)) + (10 * ((k + 1) / 10) + (k + 1) % 10) := by
            ring
        _ = v * (10 * tenPow ((k + 1) / 10)) + (k + 1) := by rw [hqr]

theorem parseDigits_natToChars (n : Nat) {rest : List Char} (h : headNotDigit rest) :
    parseDigitsAux 0 (natToChars n ++ rest) = (n, rest) := by
  rw [natToChars]
  by_cases hn : n = 0
  · rw [if_pos hn, hn]
    simp only [List.cons_append, List.nil_append]
    rw [parseDigitsAux, if_pos (by decide)]
    rw [show (10 * 0 + ((Char.ofNat 48).toNat - 48)) = 0 from by decide]
    exact parseDigitsAux_stop 0 h
  · rw [if_neg hn, natDigitsAux_append n [] rest, List.nil_append]
    rw [parseDigitsAux_natDigitsAux n 0 rest]
    rw [Nat.zero_mul, Nat.zero_add]
    exact parseDigitsAux_stop n h

theorem toNat_ne_imp_ne {c e : Char} (h : c.toNat ≠ e.toNat) : c ≠ e :=
  fun heq => h (by rw [heq])

theorem parseJsonNumber_intToChars (i : Int) {rest : List Char} (h : headNotDigit rest) :
    parseJsonNumber (intToChars i ++ rest) = some (.num i, rest) := by
  obtain ⟨d, t, hdt, hdig⟩ := natToChars_head i.natAbs
  have hb := toNat_of_isDigit hdig
  have hdigits : parseDigitsAux 0 (natToChars i.natAbs ++ rest) = (i.natAbs, rest) :=
    parseDigits_natToChars i.natAbs h
  rw [intToChars]
  by_cases hi : i < 0
  · rw [if_pos hi]
    simp only [List.cons_append]
    rw [parseJsonNumber.eq_def]
    dsimp only
    rw [if_pos rfl, hdt]
    simp only [List.cons_append]
    rw [if_pos hdig]
    rw [show d :: (t ++ rest) = (d :: t) ++ rest from rfl, ← hdt, hdigits]
    have hval : -((i.natAbs : Int)) = i := by omega
    rw [hval]
  · rw [if_neg hi, hdt]
    simp only [List.cons_append]
    rw [parseJsonNumber.eq_def]
    dsimp only
    rw [if_neg (toNat_ne_imp_ne (by rw [show ('-').toNat = 45 from by decide]; omega)),
      if_pos hdig]
    rw [show d :: (t ++ rest) = (d :: t) ++ rest from rfl, ← hdt, hdigits]
    have hval : ((i.natAbs : Int)) = i := by omega
    rw [hval]

theorem expectChars_append (es rest : List Char) : expectChars es (es ++ rest) = some rest := by
  induction es with
  | nil => rfl
  | cons e es ih =>
    rw [List.cons_append, expectChars, if_pos rfl]
    exact ih

theorem parseJsonString_escape (cs : List Char) (rest : List Char) :
    parseJsonString (escapeJsonString cs ++ (Char.ofNat 34 :: rest)) = some (cs, rest) := by
  induction cs with
  | nil =>
    rw [show escapeJsonString [] = [] from rfl, List.nil_append]
    rw [parseJsonString.eq_def]
    dsimp only
    rw [if_pos (by decide)]
  | cons c cs ih =>
    rw [show escapeJsonString (c :: cs) = escapeJsonChar c ++ escapeJsonString cs from by
      simp [escapeJsonString], List.append_assoc, escapeJsonChar]
    by_cases h34 : c.toNat = 34
    · rw [if_pos h34]
      have hc : Char.ofNat 34 = c := by rw [← h34, Char.ofNat_toNat]
      simp only [List.cons_append, List.nil_append]
      rw [parseJsonString.eq_def]
      dsimp only
      rw [if_neg (by decide), if_pos (by decide)]
      rw [if_neg (by decide : ¬(Char.ofNat 34 = Char.ofNat 117))]
      rw [show unescapeChar (Char.ofNat 34) = some (Char.ofNat 34) from by decide]
      dsimp only
      rw [ih, hc]
      rfl
    · by_cases h92 : c.toNat = 92
      · rw [if_neg h34, if_pos h92]
        have hc : Char.ofNat 92 = c := by rw [← h92, Char.ofNat_toNat]
        simp only [List.cons_append, List.nil_append]
        rw [parseJsonString.eq_def]
        dsimp only
        rw [if_neg (by decide), if_pos (by decide)]
        rw [if_neg (by decide : ¬(Char.ofNat 92 = Char.ofNat 117))]
        rw [show unescapeChar (Char.ofNat 92) = some (Char.ofNat 92) from by decide]
        dsimp only
        rw [ih, hc]
        rfl
      · by_cases h8 : c.toNat = 8
        · rw [if_neg h34, if_neg h92, if_pos h8]
          have hc : Char.ofNat 8 = c := by rw [← h8, Char.ofNat_toNat]
          simp only [List.cons_append, List.nil_append]
          rw [parseJsonString.eq_def]
          dsimp only
          rw [if_neg (by decide), if_pos (by decide)]
          rw [if_neg (by decide : ¬('b' = Char.ofNat 117))]
          rw [show unescapeChar 'b' = some (Char.ofNat 8) from by decide]
          dsimp only
          rw [ih, hc]
          rfl
        · by_cases h9 : c.toNat = 9
          · rw [if_neg h34, if_neg h92, if_neg h8, if_pos h9]
            have hc : Char.ofNat 9 = c := by rw [← h9, Char.ofNat_toNat]
            simp only [List.cons_append, List.nil_append]
            rw [parseJsonString.eq_def]
            dsimp only
            rw [if_neg (by decide), if_pos (by decide)]
            rw [if_neg (by decide : ¬('t' = Char.ofNat 117))]
            rw [show unescapeChar 't' = some (Char.ofNat 9) from by decide]
            dsimp only
            rw [ih, hc]
            rfl
          · by_cases h10 : c.toNat = 10
            · rw [if_neg h34, if_neg h92, if_neg h8, if_neg h9, if_pos h10]
              have hc : Char.ofNat 10 = c := by rw [← h10, Char.ofNat_toNat]
              simp only [List.cons_append, List.nil_append]
              rw [parseJsonString.eq_def]
              dsimp only
              rw [if_neg (by decide), if_pos (by decide)]
              rw [if_neg (by decide : ¬('n' = Char.ofNat 117))]
              rw [show unescapeChar 'n' = some (Char.ofNat 10) from by decide]
              dsimp only
              rw [ih, hc]
              rfl
            · by_cases h12 : c.toNat = 12
              · rw [if_neg h34, if_neg h92, if_neg h8, if_neg h9, if_neg h10, if_pos h12]
                have hc : Char.ofNat 12 = c := by rw [← h12, Char.ofNat_toNat]
                simp only [List.cons_append, List.nil_append]
                rw [parseJsonString.eq_def]
                dsimp only
                rw [if_neg (by decide), if_pos (by decide)]
                rw [if_neg (by decide : ¬('f' = Char.ofNat 117))]
                rw [show unescapeChar 'f' = some (Char.ofNat 12) from by decide]
                dsimp only
                rw [ih, hc]
                rfl
              · by_cases h13 : c.toNat = 13
                · rw [if_neg h34, if_neg h92, if_neg h8, if_neg h9, if_neg h10, if_neg h12,
                    if_pos h13]
                  have hc : Char.ofNat 13 = c := by rw [← h13, Char.ofNat_toNat]
                  simp only [List.cons_append, List.nil_append]
                  rw [parseJsonString.eq_def]
                  dsimp only
                  rw [if_neg (by decide), if_pos (by decide)]
                  rw [if_neg (by decide : ¬('r' = Char.ofNat 117))]
                  rw [show unescapeChar 'r' = some (Char.ofNat 13) from by decide]
                  dsimp only
                  rw [ih, hc]
                  rfl
                · by_cases hlt : c.toNat < 32
                  · rw [if_neg h34, if_neg h92, if_neg h8, if_neg h9, if_neg h10, if_neg h12,
                      if_neg h13, if_pos hlt]
                    have hc : Char.ofNat c.toNat = c := Char.ofNat_toNat c
                    simp only [List.cons_append, List.nil_append]
                    rw [parseJsonString.eq_def]
                    dsimp only
                    rw [if_neg (by decide), if_pos (by decide)]
                    rw [if_pos rfl]
                    rw [hexFour.eq_def]
                    rw [show hexCharVal (Char.ofNat 48) = some 0 from by decide]
                    rw [hexCharVal_hexDigitLower (by omega : c.toNat / 16 < 16),
                      hexCharVal_hexDigitLower (by omega : c.toNat % 16 < 16)]
                    dsimp only
                    have harith : ((0 * 16 + 0) * 16 + c.toNat / 16) * 16 + c.toNat % 16 =
                        c.toNat := by omega
                    rw [harith, if_pos (Or.inl (by omega)), ih, hc]
                    rfl
                  · rw [if_neg h34, if_neg h92, if_neg h8, if_neg h9, if_neg h10, if_neg h12,
                      if_neg h13, if_neg hlt]
                    simp only [List.cons_append, List.nil_append]
                    rw [parseJsonString.eq_def]
                    dsimp only
                    rw [if_neg h34, if_neg h92, ih]
                    rfl

theorem parseMemberKey_quote (k : String) (rest : List Char) :
    parseMemberKey (quoteJson k ++ (':' :: rest)) = some (k, rest) := by
  rw [quoteJson]
  simp only [List.cons_append, List.append_assoc, List.cons_append, List.nil_append]
  rw [parseMemberKey.eq_def]
  dsimp only
  rw [if_pos (by decide)]
  rw [parseJsonString_escape]
  dsimp only
  rw [if_pos rfl]

theorem restOk_comma (t : List Char) : restOk (',' :: t) := Or.inl rfl

theorem restOk_closeBracket (t : List Char) : restOk (Char.ofNat 93 :: t) :=
  Or.inr (Or.inl (by decide))

theorem restOk_closeBrace (t : List Char) : restOk (Char.ofNat 125 :: t) :=
  Or.inr (Or.inr (by decide))

theorem restOk_headNotDigit {rest : List Char} (h : restOk rest) : headNotDigit rest := by
  match rest with
  | [] => trivial
  | c :: t =>
    have hc : c.toNat = 44 ∨ c.toNat = 93 ∨ c.toNat = 125 := by
      rcases h with h | h | h
      · subst h; left; decide
      · right; left; exact h
      · right; right; exact h
    show c.isDigit = false
    cases hdig : c.isDigit with
    | false => rfl
    | true =>
      have := toNat_of_isDigit hdig
      omega

theorem stringifyV_head (v : JsonValue) :
    ∃ d t, stringifyV v = d :: t ∧ d.toNat ≠ 93 ∧ d.toNat ≠ 125 := by
  cases v with
  | undefined => exact ⟨_, _, by rw [stringifyV], by decide, by decide⟩
  | null => exact ⟨_, _, by rw [stringifyV], by decide, by decide⟩
  | bool b =>
    cases b
    · exact ⟨_, _, by rw [stringifyV], by decide, by decide⟩
    · exact ⟨_, _, by rw [stringifyV], by decide, by decide⟩
  | num i =>
    by_cases hi : i < 0
    · exact ⟨_, _, by rw [stringifyV, intToChars, if_pos hi], by decide, by decide⟩
    · obtain ⟨d, t, hdt, hdig⟩ := natToChars_head i.natAbs
      have hb := toNat_of_isDigit hdig
      exact ⟨d, t, by rw [stringifyV, intToChars, if_neg hi, hdt], by omega, by omega⟩
  | str s =>
    exact ⟨Char.ofNat 34, escapeJsonString s.data ++ [Char.ofNat 34],
      by rw [stringifyV, quoteJson]; exact List.cons_append _ _ _, by decide, by decide⟩
  | arr xs =>
    exact ⟨Char.ofNat 91, stringifyElems xs ++ [Char.ofNat 93],
      by rw [stringifyV]; exact List.cons_append _ _ _, by decide, by decide⟩
  | obj fs =>
    exact ⟨Char.ofNat 123, stringifyMembers fs ++ [Char.ofNat 125],
      by rw [stringifyV]; exact List.cons_append _ _ _, by decide, by decide⟩

theorem stringifyElems_cons_cons (x y : JsonValue) (ys : List JsonValue) :
    stringifyElems (x :: y :: ys) = stringifyV x ++ ',' :: stringifyElems (y :: ys) := by
  rw [stringifyElems]
  simp

theorem stringifyMembers_cons_cons (k : String) (v : JsonValue)
    (g : String × JsonValue) (fs : List (String × JsonValue)) :
    stringifyMembers ((k, v) :: g :: fs) =
      quoteJson k ++ ':' :: stringifyV v ++ ',' :: stringifyMembers (g :: fs) := by
  rw [stringifyMembers]
  simp

theorem parseJson_stringify (fuel : Nat) :
    (∀ v rest, pureJson v = true → (stringifyV v).length ≤ fuel → restOk rest →
      parseJsonValue fuel (stringifyV v ++ rest) = some (v, rest)) ∧
    (∀ xs rest, xs ≠ [] → pureJsonElems xs = true →
      (stringifyElems xs).length + 1 ≤ fuel →
      parseJsonElems fuel (stringifyElems xs ++ Char.ofNat 93 :: rest) = some (xs, rest)) ∧
    (∀ fs rest, fs ≠ [] → pureJsonMembers fs = true →
      (stringifyMembers fs).length + 1 ≤ fuel →
      parseJsonMembers fuel (stringifyMembers fs ++ Char.ofNat 125 :: rest) = some (fs, rest)) := by
  induction fuel using Nat.strongRecOn with
  | _ fuel ih =>
    refine ⟨?_, ?_, ?_⟩
    · intro v rest hpure hlen hrest
      match fuel, hlen with
      | 0, hlen =>
        obtain ⟨d0, t0, hd0, _, _⟩ := stringifyV_head v
        rw [hd0] at hlen
        simp at hlen
      | f + 1, hlen =>
        cases v with
        | undefined => simp [pureJson] at hpure
        | null =>
          rw [stringifyV]
          simp only [List.cons_append, List.nil_append]
          rw [parseJsonValue.eq_def]
          dsimp only
          rw [if_neg (by decide), if_neg (by decide), if_neg (by decide), if_pos rfl]
          rw [show ('u' :: 'l' :: 'l' :: rest) = ['u', 'l', 'l'] ++ rest from rfl,
            expectChars_append]
          rfl
        | bool b =>
          cases b
          · rw [stringifyV]
            simp only [List.cons_append, List.nil_append]
            rw [parseJsonValue.eq_def]
            dsimp only
            rw [if_neg (by decide), if_neg (by decide), if_pos rfl]
            rw [show ('a' :: 'l' :: 's' :: 'e' :: rest) = ['a', 'l', 's', 'e'] ++ rest from rfl,
              expectChars_append]
            rfl
          · rw [stringifyV]
            simp only [List.cons_append, List.nil_append]
            rw [parseJsonValue.eq_def]
            dsimp only
            rw [if_neg (by decide), if_pos rfl]
            rw [show ('r' :: 'u' :: 'e' :: rest) = ['r', 'u', 'e'] ++ rest from rfl,
              expectChars_append]
            rfl
        | num i =>
          have hnum := parseJsonNumber_intToChars i (restOk_headNotDigit hrest)
          rw [stringifyV]
          by_cases hi : i < 0
          · rw [intToChars, if_pos hi] at hnum ⊢
            simp only [List.cons_append] at hnum ⊢
            rw [parseJsonValue.eq_def]
            dsimp only
            rw [if_neg (by decide), if_neg (by decide), if_neg (by decide), if_neg (by decide),
              if_neg (by decide), if_neg (by decide)]
            exact hnum
          · obtain ⟨d, t, hdt, hdig⟩ := natToChars_head i.natAbs
            have hb := toNat_of_isDigit hdig
            rw [intToChars, if_neg hi, hdt] at hnum ⊢
            simp only [List.cons_append] at hnum ⊢
            rw [parseJsonValue.eq_def]
            dsimp only
            rw [if_neg (by omega),
              if_neg (toNat_ne_imp_ne (by rw [show ('t').toNat = 116 from by decide]; omega)),
              if_neg (toNat_ne_imp_ne (by rw [show ('f').toNat = 102 from by decide]; omega)),
              if_neg (toNat_ne_imp_ne (by rw [show ('n').toNat = 110 from by decide]; omega)),
              if_neg (by omega), if_neg (by omega)]
            exact hnum
        | str s =>
          rw [stringifyV, quoteJson]
          simp only [List.cons_append, List.append_assoc, List.nil_append]
          rw [parseJsonValue.eq_def]
          dsimp only
          rw [if_pos (by decide)]
          rw [parseJsonString_escape]
          rfl
        | arr xs =>
          match xs with
          | [] =>
            rw [stringifyV]
            rw [show stringifyElems [] = ([] : List Char) from by rw [stringifyElems]]
            simp only [List.cons_append, List.nil_append]
            rw [parseJsonValue.eq_def]
            dsimp only
            rw [if_neg (by decide), if_neg (by decide), if_neg (by decide), if_neg (by decide),
              if_pos (by decide)]
            rw [if_pos (by decide)]
          | x :: xs' =>
            rw [pureJson] at hpure
            obtain ⟨d1, t1, hd1, hne93, _⟩ := stringifyV_head x
            have hheadE : ∃ te, stringifyElems (x :: xs') ++ Char.ofNat 93 :: rest =
                d1 :: te := by
              match xs' with
              | [] =>
                rw [show stringifyElems [x] = stringifyV x from by rw [stringifyElems], hd1]
                exact ⟨t1 ++ Char.ofNat 93 :: rest, by simp⟩
              | y :: ys =>
                rw [stringifyElems_cons_cons, hd1]
                exact ⟨t1 ++ ',' :: (stringifyElems (y :: ys) ++ Char.ofNat 93 :: rest),
                  by simp⟩
            obtain ⟨te, hheadE⟩ := hheadE
            rw [stringifyV] at hlen ⊢
            simp only [List.cons_append, List.append_assoc, List.nil_append] at hlen ⊢
            rw [parseJsonValue.eq_def]
            dsimp only
            rw [if_neg (by decide), if_neg (by decide), if_neg (by decide), if_neg (by decide),
              if_pos (by decide)]
            rw [hheadE]
            dsimp only
            rw [if_neg hne93, ← hheadE]
            have hlenE : (stringifyElems (x :: xs')).length + 1 ≤ f := by
              simp only [List.length_append, List.length_cons, List.length_nil] at hlen
              omega
            rw [(ih f (Nat.lt_succ_self f)).2.1 (x :: xs') rest (by simp) hpure hlenE]
            rfl
        | obj fs =>
          match fs with
          | [] =>
            rw [stringifyV]
            rw [show stringifyMembers [] = ([] : List Char) from by rw [stringifyMembers]]
            simp only [List.cons_append, List.nil_append]
            rw [parseJsonValue.eq_def]
            dsimp only
            rw [if_neg (by decide), if_neg (by decide), if_neg (by decide), if_neg (by decide),
              if_neg (by decide), if_pos (by decide)]
            rw [if_pos (by decide)]
          | (k, w) :: fs' =>
            rw [pureJson] at hpure
            have hheadM : ∃ tm, stringifyMembers ((k, w) :: fs') ++ Char.ofNat 125 :: rest =
                Char.ofNat 34 :: tm := by
              match fs' with
              | [] =>
                rw [show stringifyMembers [(k, w)] = quoteJson k ++ ':' :: stringifyV w from by
                  rw [stringifyMembers], quoteJson]
                exact ⟨escapeJsonString k.data ++ Char.ofNat 34 :: ':' ::
                  (stringifyV w ++ Char.ofNat 125 :: rest), by simp⟩
              | g :: gs =>
                rw [stringifyMembers_cons_cons, quoteJson]
                exact ⟨escapeJsonString k.data ++ Char.ofNat 34 :: ':' :: (stringifyV w ++
                  ',' :: (stringifyMembers (g :: gs) ++ Char.ofNat 125 :: rest)), by simp⟩
            obtain ⟨tm, htm⟩ := hheadM
            rw [stringifyV] at hlen ⊢
            simp only [List.cons_append, List.append_assoc, List.nil_append] at hlen ⊢
            rw [parseJsonValue.eq_def]
            dsimp only
            rw [if_neg (by decide), if_neg (by decide), if_neg (by decide), if_neg (by decide),
              if_neg (by decide), if_pos (by decide)]
            rw [htm]
            dsimp only
            rw [if_neg (by decide), ← htm]
            have hlenM : (stringifyMembers ((k, w) :: fs')).length + 1 ≤ f := by
              simp only [List.length_append, List.length_cons, List.length_nil] at hlen
              omega
            rw [(ih f (Nat.lt_succ_self f)).2.2 ((k, w) :: fs') rest (by simp) hpure hlenM]
            rfl
    · intro xs rest hne hpure hlen
      match fuel, xs with
      | _, [] => exact absurd rfl hne
      | 0, x :: xs' => omega
      | f + 1, x :: xs' =>
        rw [pureJsonElems, Bool.and_eq_true] at hpure
        obtain ⟨hpx, hpxs⟩ := hpure
        rw [parseJsonElems.eq_def]
        dsimp only
        match xs' with
        | [] =>
          rw [show stringifyElems [x] = stringifyV x from by rw [stringifyElems]] at hlen ⊢
          rw [(ih f (Nat.lt_succ_self f)).1 x (Char.ofNat 93 :: rest) hpx (by omega)
            (restOk_closeBracket rest)]
          dsimp only
          rw [if_neg (by decide), if_pos (by decide)]
        | y :: ys =>
          rw [stringifyElems_cons_cons] at hlen ⊢
          simp only [List.append_assoc, List.cons_append] at hlen ⊢
          have hlx : (stringifyV x).length ≤ f := by
            simp only [List.length_append, List.length_cons] at hlen
            omega
          rw [(ih f (Nat.lt_succ_self f)).1 x
            (',' :: (stringifyElems (y :: ys) ++ Char.ofNat 93 :: rest)) hpx hlx
            (restOk_comma _)]
          dsimp only
          rw [if_pos rfl]
          have hlys : (stringifyElems (y :: ys)).length + 1 ≤ f := by
            simp only [List.length_append, List.length_cons] at hlen
            omega
          rw [(ih f (Nat.lt_succ_self f)).2.1 (y :: ys) rest (by simp) hpxs hlys]
          rfl
    · intro fs rest hne hpure hlen
      match fuel, fs with
      | _, [] => exact absurd rfl hne
      | 0, (k, w) :: fs' => omega
      | f + 1, (k, w) :: fs' =>
        rw [pureJsonMembers, Bool.and_eq_true] at hpure
        obtain ⟨hpw, hpfs⟩ := hpure
        rw [parseJsonMembers.eq_def]
        dsimp only
        match fs' with
        | [] =>
          rw [show stringifyMembers [(k, w)] = quoteJson k ++ ':' :: stringifyV w from by
            rw [stringifyMembers]] at hlen ⊢
          simp only [List.append_assoc, List.cons_append] at hlen ⊢
          rw [parseMemberKey_quote]
          dsimp only
          have hlw : (stringifyV w).length ≤ f := by
            simp only [List.length_append, List.length_cons] at hlen
            omega
          rw [(ih f (Nat.lt_succ_self f)).1 w (Char.ofNat 125 :: rest) hpw hlw
            (restOk_closeBrace rest)]
          dsimp only
          rw [if_neg (by decide), if_pos (by decide)]
        | g :: gs =>
          rw [stringifyMembers_cons_cons] at hlen ⊢
          simp only [List.append_assoc, List.cons_append] at hlen ⊢
          rw [parseMemberKey_quote]
          dsimp only
          have hlw : (stringifyV w).length ≤ f := by
            simp only [List.length_append, List.length_cons] at hlen
            omega
          rw [(ih f (Nat.lt_succ_self f)).1 w
            (',' :: (stringifyMembers (g :: gs) ++ Char.ofNat 125 :: rest)) hpw hlw
            (restOk_comma _)]
          dsimp only
          rw [if_pos rfl]
          have hlgs : (stringifyMembers (g :: gs)).length + 1 ≤ f := by
            simp only [List.length_append, List.length_cons] at hlen
            omega
          rw [(ih f (Nat.lt_succ_self f)).2.2 (g :: gs) rest (by simp) hpfs hlgs]
          rfl

theorem jsonParse_jsonStringify (v : JsonValue) (h : pureJson v = true) :
    jsonParse (jsonStringify v) = some v := by
  rw [jsonParse, jsonStringify]
  rw [show (String.mk (stringifyV v)).data = stringifyV v from rfl]
  have hv := (parseJson_stringify ((stringifyV v).length + 1)).1 v [] h (by omega) trivial
  rw [List.append_nil] at hv
  rw [hv]

theorem decodeURIComponent_encodeURIComponent (s : String) :
    decodeURIComponent (encodeURIComponent s) = some s := by
  rw [decodeURIComponent, encodeURIComponent]
  show (percentDecode ((s.data.map encodeChar).flatten)).bind _ = some s
  rw [percentDecode_encodeAll]
  show (utf8Decode ((s.data.map (fun c => utf8EncodeChar c.toNat)).flatten)).map _ = some s
  rw [utf8Decode_encodeAll]
  show some (String.mk s.data) = some s
  cases s
  rfl

/-! ### The offer factory's grant block -/

theorem applyGrants_preAuth (freshId : String) (opts : OfferOpts)
    (offer : CredentialOfferPayloadM) (hpre : strTruthy opts.preAuthorizedCode = true) :
    applyGrants freshId opts offer =
      { offer with grants := (some ({ offer.grants.getD {} with
          preAuthorizedCode := some ⟨opts.preAuthorizedCode.getD "", opts.txCode⟩ })) } := by
  rw [applyGrants, if_pos hpre]

theorem applyGrants_twice_preAuth (freshId1 freshId2 : String) (opts : OfferOpts)
    (offer : CredentialOfferPayloadM) (hpre : strTruthy opts.preAuthorizedCode = true) :
    applyGrants freshId2 opts (applyGrants freshId1 opts offer) =
      { offer with grants := (some ({ offer.grants.getD {} with
          preAuthorizedCode := some ⟨opts.preAuthorizedCode.getD "", opts.txCode⟩ })) } := by
  rw [applyGrants_preAuth freshId1 opts offer hpre,
    applyGrants_preAuth freshId2 opts _ hpre]
  simp

theorem applyGrants_noPre_noState (freshId : String) (opts : OfferOpts)
    (offer : CredentialOfferPayloadM)
    (hpre : strTruthy opts.preAuthorizedCode = false)
    (hst : strTruthy ((offer.grants.getD {}).authorization_code.bind
      AuthorizationCodeGrant.issuer_state) = false) :
    applyGrants freshId opts offer =
      { offer with grants := (some ⟨some ⟨some (opts.issuerState.getD freshId)⟩, none⟩) } := by
  rw [applyGrants, if_neg (by simp [hpre]), if_pos (by simp [hst])]

theorem applyGrants_noPre_state (freshId : String) (opts : OfferOpts)
    (offer : CredentialOfferPayloadM)
    (hpre : strTruthy opts.preAuthorizedCode = false)
    (hst : strTruthy ((offer.grants.getD {}).authorization_code.bind
      AuthorizationCodeGrant.issuer_state) = true) :
    applyGrants freshId opts offer =
      { offer with grants := (some (offer.grants.getD {})) } := by
  rw [applyGrants, if_neg (by simp [hpre]), if_neg (by simp [hst])]

theorem applyGrants_twice_noPre_noState (freshId1 freshId2 : String) (opts : OfferOpts)
    (offer : CredentialOfferPayloadM) (hf1 : freshId1 ≠ "")
    (hpre : strTruthy opts.preAuthorizedCode = false)
    (hst : strTruthy ((offer.grants.getD {}).authorization_code.bind
      AuthorizationCodeGrant.issuer_state) = false) :
    applyGrants freshId2 opts (applyGrants freshId1 opts offer) =
      { offer with grants := (some ⟨some ⟨some (opts.issuerState.getD freshId1)⟩, none⟩) } := by
  rw [applyGrants_noPre_noState freshId1 opts offer hpre hst]
  cases his : opts.issuerState with
  | none =>
    rw [applyGrants_noPre_state freshId2 opts _ hpre
      (by simp [strTruthy, Option.bind, his, hf1])]
    simp
  | some s =>
    by_cases hs : s = ""
    · rw [applyGrants_noPre_noState freshId2 opts _ hpre
        (by simp [strTruthy, Option.bind, his, hs])]
      simp [his, hs]
    · rw [applyGrants_noPre_state freshId2 opts _ hpre
        (by simp [strTruthy, Option.bind, his, hs])]
      simp

theorem applyGrants_twice_noPre_state (freshId1 freshId2 : String) (opts : OfferOpts)
    (offer : CredentialOfferPayloadM)
    (hpre : strTruthy opts.preAuthorizedCode = false)
    (hst : strTruthy ((offer.grants.getD {}).authorization_code.bind
      AuthorizationCodeGrant.issuer_state) = true) :
    applyGrants freshId2 opts (applyGrants freshId1 opts offer) =
      { offer with grants := (some (offer.grants.getD {})) } := by
  rw [applyGrants_noPre_state freshId1 opts offer hpre hst]
  rw [applyGrants_noPre_state freshId2 opts _ hpre (by simpa using hst)]
  simp

theorem createCredentialOfferObject_ok_grants (freshId1 freshId2 : String)
    (metadata : Option IssuerMetadataM) (opts : OfferOpts) (r : OfferResult)
    (hok : createCredentialOfferObject freshId1 freshId2 metadata opts = .ok r) :
    ∃ base : CredentialOfferPayloadM,
      (opts.credentialOffer = some base ∨ (opts.credentialOffer = none ∧ base.grants = none)) ∧
      r.credential_offer = applyGrants freshId2 opts (applyGrants freshId1 opts base) ∧
      r.grants = (applyGrants freshId2 opts (applyGrants freshId1 opts base)).grants.getD {} := by
  rw [createCredentialOfferObject] at hok
  split at hok
  · exact absurd hok (by simp)
  · simp only [] at hok
    cases hbase : offerBaseUri0 (offerScheme opts) metadata opts with
    | error e =>
      rw [hbase] at hok
      simp at hok
    | ok b0 =>
      rw [hbase] at hok
      cases hpay : offerPayload metadata opts with
      | error e =>
        rw [hpay] at hok
        simp at hok
      | ok co =>
        rw [hpay] at hok
        simp only [Except.ok.injEq] at hok
        refine ⟨co, ?_, ?_, ?_⟩
        · rw [offerPayload] at hpay
          cases hop : opts.credentialOffer with
          | some c =>
            rw [hop] at hpay
            dsimp only at hpay
            simp only [Except.ok.injEq] at hpay
            exact Or.inl (by rw [hpay])
          | none =>
            rw [hop] at hpay
            dsimp only at hpay
            right
            refine ⟨rfl, ?_⟩
            split at hpay
            · exact absurd hpay (by simp)
            · simp only [Except.ok.injEq] at hpay
              rw [← hpay]
        · rw [← hok]
        · rw [← hok]

/-! ### Resolver claim helpers -/

/-- A string that starts with `did:` is not empty. -/
theorem beq_empty_false_of_jsStartsWith_did {k : String}
    (h : jsStartsWith k "did:" = true) : (k == "") = false := by
  cases k with
  | mk data =>
    cases data with
    | nil => exact absurd h (by decide)
    | cons c cs =>
      simp only [beq_eq_false_iff_ne, ne_eq]
      intro heq
      have := congrArg String.data heq
      simp at this

/-- After the header-`typ`, `sub`, `iss`, `exp` and `cnf`-typeof checks
pass, `validateVerifierAttestation` reduces to the JavaScript property
access `cnf['jwk']` followed by the nested-jwk typeof check and the
`redirect_uris` allowlist check. -/
theorem validateVerifierAttestation_after_checks (clientId : String)
    (redirectUri : Option String) (att : ParsedJwt)
    (htyp : att.typ = some verifierAttestationSubtype)
    (hsub : jsEqString (jsGetField att.payload "sub") clientId = true)
    (hiss : ((jsGetField att.payload "iss").truthy &&
      (jsGetField att.payload "iss").jsTypeof == "string") = true)
    (hexp : ((jsGetField att.payload "exp").truthy &&
      (jsGetField att.payload "exp").jsTypeof == "number") = true)
    (hty : (jsGetField att.payload "cnf").jsTypeof = "object") :
    validateVerifierAttestation clientId redirectUri att =
      (match jsGetProp (jsGetField att.payload "cnf") "jwk" with
       | .error e => .error e
       | .ok cnfJwk =>
         if cnfJwk.jsTypeof != "object" then .error .badVerifierAttestation
         else if (jsGetField att.payload "redirect_uris").truthy then
           match asStringList (jsGetField att.payload "redirect_uris") with
           | none => .error .badVerifierAttestationRedirectUris
           | some uris =>
             match redirectUri with
             | none => .error .badVerifierAttestationRedirectUris
             | some r =>
               if r == "" then .error .badVerifierAttestationRedirectUris
               else if !(uris.contains r) then .error .badVerifierAttestationRedirectUris
               else .ok (.jwk .requestObject cnfJwk none)
         else .ok (.jwk .requestObject cnfJwk none)) := by
  rw [validateVerifierAttestation]
  rw [if_neg (by simp [htyp]), if_neg (by simp [hsub]), if_neg (by simp [hiss]),
    if_neg (by simp [hexp]), if_neg (by simp [hty])]
  cases jsGetProp (jsGetField att.payload "cnf") "jwk" <;> rfl

/-! ### Claims -/

/-- C1: for an identity-assertion (id-token) JWT presenting a truthy
object `jwk` header, `getJwkVerifier` succeeds exactly when the payload
carries a string `sub_jwk` claim that is a valid thumbprint URI (the
digest algorithm derives from it) and the thumbprint recomputed over the
presented jwk equals `sub_jwk`; on mismatch it fails with the
thumbprint-mismatch error, and on success the returned `Jwk` verifier
carries `jwkThumbprint` equal to `sub_jwk`. -/
theorem c1_jwk_thumbprint_resolution
    (digestAlg : String → Option String) (calcThumbprint : JsonValue → String → String)
    (header : JwtHeaderM) (payload : JwtPayloadM) (jwk : JsonValue)
    (hjwk : header.jwk = some jwk) (htr : jwk.truthy = true) (hty : jwk.jsTypeof = "object") :
    ((∃ v, getJwkVerifier digestAlg calcThumbprint header payload .idToken = .ok v) ↔
      (∃ u alg, payload.sub_jwk = some (.str u) ∧ digestAlg u = some alg ∧
        calcThumbprint jwk alg = u)) ∧
    (∀ u alg, payload.sub_jwk = some (.str u) → digestAlg u = some alg →
      calcThumbprint jwk alg ≠ u →
      getJwkVerifier digestAlg calcThumbprint header payload .idToken =
        .error .thumbprintMismatch) ∧
    (∀ u alg, payload.sub_jwk = some (.str u) → digestAlg u = some alg →
      calcThumbprint jwk alg = u →
      getJwkVerifier digestAlg calcThumbprint header payload .idToken =
        .ok (.jwk .idToken jwk (some u))) := by
  have hred : getJwkVerifier digestAlg calcThumbprint header payload .idToken =
      (match payload.sub_jwk with
       | some (.str thumbUri) =>
         match digestAlg thumbUri with
         | none => .error .invalidThumbprintUri
         | some alg =>
           if calcThumbprint jwk alg != thumbUri then .error .thumbprintMismatch
           else .ok (.jwk .idToken jwk (some thumbUri))
       | _ => .error .invalidJwtMissingSubJwk) := by
    rw [getJwkVerifier, hjwk]
    dsimp only
    rw [htr, hty]
    rw [if_neg (by decide), if_neg (by decide), if_neg (by decide)]
  refine ⟨⟨?_, ?_⟩, ?_, ?_⟩
  · rintro ⟨v, hv⟩
    rw [hred] at hv
    cases hsub : payload.sub_jwk with
    | none => rw [hsub] at hv; simp at hv
    | some w =>
      rw [hsub] at hv
      cases w with
      | str u =>
        dsimp only at hv
        cases hdg : digestAlg u with
        | none => rw [hdg] at hv; simp at hv
        | some alg =>
          rw [hdg] at hv
          dsimp only at hv
          split at hv
          · simp at hv
          · rename_i hcond
            refine ⟨u, alg, rfl, hdg, ?_⟩
            simpa using hcond
      | undefined => simp at hv
      | null => simp at hv
      | bool b => simp at hv
      | num i => simp at hv
      | arr xs => simp at hv
      | obj fs => simp at hv
  · rintro ⟨u, alg, hsub, hdg, hcal⟩
    rw [hred, hsub]
    dsimp only
    rw [hdg]
    dsimp only
    rw [if_neg (by simp [hcal])]
    exact ⟨_, rfl⟩
  · intro u alg hsub hdg hne
    rw [hred, hsub]
    dsimp only
    rw [hdg]
    dsimp only
    rw [if_pos (by simpa using hne)]
  · intro u alg hsub hdg hcal
    rw [hred, hsub]
    dsimp only
    rw [hdg]
    dsimp only
    rw [if_neg (by simp [hcal])]

/-- C1 witness: with a thumbprint calculator that returns `t`, a payload
whose `sub_jwk` is `t` succeeds carrying thumbprint `t`; with one that
returns `x`, the same payload fails with the thumbprint-mismatch
error. -/
theorem c1_jwk_thumbprint_resolution_witness :
    getJwkVerifier (fun u => if u == "t" then some "sha256" else none) (fun _ _ => "t")
        { jwk := some (.obj []) } { sub_jwk := some (.str "t") } .idToken =
      .ok (.jwk .idToken (.obj []) (some "t")) ∧
    getJwkVerifier (fun u => if u == "t" then some "sha256" else none) (fun _ _ => "x")
        { jwk := some (.obj []) } { sub_jwk := some (.str "t") } .idToken =
      .error .thumbprintMismatch := by
  constructor
  · exact (c1_jwk_thumbprint_resolution (fun u => if u == "t" then some "sha256" else none)
      (fun _ _ => "t") { jwk := some (.obj []) } { sub_jwk := some (.str "t") } (.obj [])
      rfl rfl rfl).2.2 "t" "sha256" rfl rfl rfl
  · exact (c1_jwk_thumbprint_resolution (fun u => if u == "t" then some "sha256" else none)
      (fun _ _ => "x") { jwk := some (.obj []) } { sub_jwk := some (.str "t") } (.obj [])
      rfl rfl rfl).2.1 "t" "sha256" rfl rfl (by decide)

/-- C2: for a request object declaring `client_id_scheme`
`redirect_uri`: a truthy `redirect_uri` claim differing from `client_id`
fails with the client-id-mismatch error; otherwise a raw token with more
than two `.`-separated segments (a signature segment present) fails with
the must-not-be-signed error; when both checks pass, resolution defers
to auto-detection. -/
theorem c2_redirect_uri_scheme_checks
    (digestAlg : String → Option String) (calcThumbprint : JsonValue → String → String)
    (parseNestedJwt : String → Option ParsedJwt)
    (header : JwtHeaderM) (payload : JwtPayloadM) (raw : String)
    (hscheme : payload.client_id_scheme = some "redirect_uri") :
    (strTruthy payload.redirect_uri = true → payload.redirect_uri ≠ some payload.client_id →
      getRequestObjectJwtVerifier digestAlg calcThumbprint parseNestedJwt header payload raw =
        .error .clientIdMismatch) ∧
    ((strTruthy payload.redirect_uri = false ∨ payload.redirect_uri = some payload.client_id) →
      (jsSplit raw ".").length > 2 →
      getRequestObjectJwtVerifier digestAlg calcThumbprint parseNestedJwt header payload raw =
        .error .mustNotBeSigned) ∧
    ((strTruthy payload.redirect_uri = false ∨ payload.redirect_uri = some payload.client_id) →
      (jsSplit raw ".").length ≤ 2 →
      getRequestObjectJwtVerifier digestAlg calcThumbprint parseNestedJwt header payload raw =
        getJwtVerifierWithContext digestAlg calcThumbprint header payload .requestObject) := by
  have hred : getRequestObjectJwtVerifier digestAlg calcThumbprint parseNestedJwt
        header payload raw =
      (if strTruthy payload.redirect_uri && payload.redirect_uri != some payload.client_id then
        .error .clientIdMismatch
      else if (jsSplit raw ".").length > 2 then .error .mustNotBeSigned
      else getJwtVerifierWithContext digestAlg calcThumbprint header payload .requestObject) := by
    rw [getRequestObjectJwtVerifier]
    simp only []
    rw [hscheme]
    rw [if_neg (by decide), if_neg (by decide), if_neg (by decide), if_neg (by decide),
      if_pos (by decide)]
  refine ⟨?_, ?_, ?_⟩
  · intro h1 h2
    rw [hred, if_pos (by simp [h1, bne_iff_ne, h2])]
  · intro h1 h2
    rw [hred, if_neg ?_, if_pos h2]
    rcases h1 with h | h
    · simp [h]
    · simp [h]
  · intro h1 h2
    rw [hred, if_neg ?_, if_neg (by omega)]
    rcases h1 with h | h
    · simp [h]
    · simp [h]

/-- C2 witness: with client id `a`, a redirect_uri claim of `b` fails
with the client-id-mismatch error; with a matching claim, the
three-segment token `h.p.s` fails with the must-not-be-signed error,
while the two-segment token `h.p` auto-detects to the custom
verifier. -/
theorem c2_redirect_uri_scheme_checks_witness :
    getRequestObjectJwtVerifier (fun _ => none) (fun _ _ => "") (fun _ => none) {}
        { client_id := "a", client_id_scheme := some "redirect_uri",
          redirect_uri := some "b" } "h.p" = .error .clientIdMismatch ∧
    getRequestObjectJwtVerifier (fun _ => none) (fun _ _ => "") (fun _ => none) {}
        { client_id := "a", client_id_scheme := some "redirect_uri",
          redirect_uri := some "a" } "h.p.s" = .error .mustNotBeSigned ∧
    getRequestObjectJwtVerifier (fun _ => none) (fun _ _ => "") (fun _ => none) {}
        { client_id := "a", client_id_scheme := some "redirect_uri",
          redirect_uri := some "a" } "h.p" = .ok (.custom .requestObject) := by
  refine ⟨?_, ?_, ?_⟩
  · exact (c2_redirect_uri_scheme_checks (fun _ => none) (fun _ _ => "") (fun _ => none) {}
      { client_id := "a", client_id_scheme := some "redirect_uri", redirect_uri := some "b" }
      "h.p" rfl).1 rfl (by decide)
  · exact (c2_redirect_uri_scheme_checks (fun _ => none) (fun _ _ => "") (fun _ => none) {}
      { client_id := "a", client_id_scheme := some "redirect_uri", redirect_uri := some "a" }
      "h.p.s" rfl).2.1 (Or.inr rfl) (by decide)
  · rw [(c2_redirect_uri_scheme_checks (fun _ => none) (fun _ _ => "") (fun _ => none) {}
      { client_id := "a", client_id_scheme := some "redirect_uri", redirect_uri := some "a" }
      "h.p" rfl).2.2 (Or.inr rfl) (by decide)]
    rfl

/-- C4: the specification requires `assertValidPinNumber` to accept a
supplied transaction code exactly when it is a digit-only string of at
most 8 characters, and the spec's design notes flag the source's
regular expression `/[0-9{,8}]/` as defective.  The code indeed accepts
`"a1"` (not digit-only) and `"123456789"` (nine digits), both of which
the intended contract rejects: the regular expression merely tests for
the presence of one character from the class. -/
theorem c4_pin_validation_code_bug :
    assertValidPinNumber (some "a1") = .ok () ∧ isIntendedValidPin "a1" = false ∧
    assertValidPinNumber (some "123456789") = .ok () ∧
    isIntendedValidPin "123456789" = false ∧
    assertValidPinNumber (some "ab") = .error .pinValidationError ∧
    assertValidPinNumber (some "1234") = .ok () := by
  refine ⟨rfl, rfl, rfl, rfl, rfl, rfl⟩

/-- C3 (amended): for a successful `createCredentialOfferObject` call on
a caller-supplied offer payload: if a pre-authorized code option is
supplied, only the pre-authorized-code entry of the grants map is
replaced and the rest (in particular an existing `authorization_code`
grant) is kept; if none is supplied and no truthy
`authorization_code.issuer_state` exists on the payload, the whole
grants map is replaced by a sole `authorization_code` grant — an
existing pre-authorized-code grant on the supplied payload is dropped,
not preserved; if an `issuer_state` already exists, the grants map is
unchanged. -/
theorem c3_grant_population_amended (freshId1 freshId2 : String)
    (metadata : Option IssuerMetadataM) (opts : OfferOpts) (r : OfferResult)
    (base : CredentialOfferPayloadM)
    (hf1 : freshId1 ≠ "")
    (hbase : opts.credentialOffer = some base)
    (hok : createCredentialOfferObject freshId1 freshId2 metadata opts = .ok r) :
    (strTruthy opts.preAuthorizedCode = true →
      r.grants = { base.grants.getD {} with
        preAuthorizedCode := some ⟨opts.preAuthorizedCode.getD "", opts.txCode⟩ }) ∧
    (strTruthy opts.preAuthorizedCode = false →
      strTruthy ((base.grants.getD {}).authorization_code.bind
        AuthorizationCodeGrant.issuer_state) = false →
      r.grants = ⟨some ⟨some (opts.issuerState.getD freshId1)⟩, none⟩) ∧
    (strTruthy opts.preAuthorizedCode = false →
      strTruthy ((base.grants.getD {}).authorization_code.bind
        AuthorizationCodeGrant.issuer_state) = true →
      r.grants = base.grants.getD {}) := by
  obtain ⟨b, hsrc, _, hg⟩ :=
    createCredentialOfferObject_ok_grants freshId1 freshId2 metadata opts r hok
  have hb : b = base := by
    rcases hsrc with h | ⟨h, _⟩
    · rw [hbase] at h
      exact (Option.some.injEq _ _ ▸ h).symm
    · rw [hbase] at h
      exact absurd h (by simp)
  subst hb
  refine ⟨?_, ?_, ?_⟩
  · intro hpre
    rw [hg, applyGrants_twice_preAuth freshId1 freshId2 opts b hpre]
    simp
  · intro hpre hst
    rw [hg, applyGrants_twice_noPre_noState freshId1 freshId2 opts b hf1 hpre hst]
    simp
  · intro hpre hst
    rw [hg, applyGrants_twice_noPre_state freshId1 freshId2 opts b hpre hst]
    simp

/-- C3 witness: building with a pre-authorized code from a payload that
already carries an `authorization_code` grant keeps that grant and adds
the pre-authorized-code entry. -/
theorem c3_grant_population_amended_witness :
    ("u1" : String) ≠ "" ∧
    ∃ r, createCredentialOfferObject "u1" "u2" none
        { credentialOffer := (some { grants := (some (Grants.mk (some (AuthorizationCodeGrant.mk (some "as"))) none)) }),
          preAuthorizedCode := some "pc" } = .ok r ∧
      r.grants = Grants.mk (some (AuthorizationCodeGrant.mk (some "as")))
        (some (PreAuthorizedCodeGrant.mk "pc" none)) := by
  have hok0 : createCredentialOfferObject "u1" "u2" none
      { credentialOffer := (some { grants := (some (Grants.mk (some (AuthorizationCodeGrant.mk (some "as"))) none)) }),
        preAuthorizedCode := some "pc" } =
      .ok { credential_offer :=
              { grants := (some (Grants.mk (some (AuthorizationCodeGrant.mk (some "as")))
                  (some (PreAuthorizedCodeGrant.mk "pc" none)))) },
            credential_offer_uri := none, scheme := "openid-credential-offer", baseUri := "",
            grants := Grants.mk (some (AuthorizationCodeGrant.mk (some "as")))
              (some (PreAuthorizedCodeGrant.mk "pc" none)) } := rfl
  refine ⟨by decide, _, hok0, ?_⟩
  have h := (c3_grant_population_amended "u1" "u2" none
    { credentialOffer := (some { grants := (some (Grants.mk (some (AuthorizationCodeGrant.mk (some "as"))) none)) }),
      preAuthorizedCode := some "pc" } _
    { grants := (some (Grants.mk (some (AuthorizationCodeGrant.mk (some "as"))) none)) }
    (by decide) rfl hok0).1 rfl
  rw [h]
  rfl

/-- C3 counterexample: the claim says that with no pre-authorized code
an existing pre-authorized-code grant on the supplied payload is left
unchanged; yet building from a payload whose grants map holds exactly a
pre-authorized-code grant (and a caller-supplied issuer state) yields a
grants map holding only the new `authorization_code` grant — the
pre-authorized-code entry was dropped, because the source replaces the
whole map. -/
theorem c3_grants_replaced_counterexample :
    createCredentialOfferObject "u1" "u2" none
        { credentialOffer := (some { grants := (some (Grants.mk none (some (PreAuthorizedCodeGrant.mk "p" none)))) }),
          issuerState := some "st" } =
      .ok { credential_offer :=
              { grants := (some (Grants.mk (some (AuthorizationCodeGrant.mk (some "st"))) none)) },
            credential_offer_uri := none, scheme := "openid-credential-offer", baseUri := "",
            grants := Grants.mk (some (AuthorizationCodeGrant.mk (some "st"))) none } ∧
    (Grants.mk (some (AuthorizationCodeGrant.mk (some "st"))) none).preAuthorizedCode = none := by
  exact ⟨rfl, rfl⟩

/-- C9 (amended): `clearExpiredStates(ts)` removes exactly the sessions
created strictly before `ts` — a pure creation-time cutoff with no
time-to-live — so `getState` after a sweep is the filtered original
lookup.  Stated for stores with unique keys, which every store built
through `setState` has. -/
theorem c9_clear_expired_creation_cutoff (store : StateStore) (ts : Nat) (k : String)
    (hnd : (store.map Prod.fst).Nodup) :
    getState (clearExpiredStates store ts) k =
      (getState store k).filter (fun s => !decide (s.createdOn < ts)) := by
  induction store with
  | nil => rfl
  | cons kv t ih =>
    obtain ⟨k0, s0⟩ := kv
    simp only [List.map_cons, List.nodup_cons] at hnd
    obtain ⟨hk0, hndt⟩ := hnd
    have hfilt : List.filter (fun kv => !decide (kv.2.createdOn < ts)) t =
        clearExpiredStates t ts := rfl
    by_cases hexp : s0.createdOn < ts
    · by_cases hk : k0 = k
      · subst hk
        have hnone : getState t k0 = none := by
          rw [getState, List.find?_eq_none.mpr]
          · rfl
          · intro kv hkv hbeq
            rw [beq_iff_eq] at hbeq
            exact hk0 (hbeq ▸ List.mem_map_of_mem Prod.fst hkv)
        rw [clearExpiredStates, List.filter_cons_of_neg (by simp [hexp])]
        rw [hfilt, ih hndt, hnone]
        rw [show getState ((k0, s0) :: t) k0 = some s0 from by
          simp [getState, List.find?_cons_of_pos]]
        simp [Option.filter, hexp]
      · rw [clearExpiredStates, List.filter_cons_of_neg (by simp [hexp])]
        rw [hfilt, ih hndt]
        rw [show getState ((k0, s0) :: t) k = getState t k from by
          simp [getState, List.find?_cons_of_neg, hk]]
    · have hhit : ∀ l, getState ((k0, s0) :: l) k0 = some s0 := fun l => by
        simp [getState, List.find?_cons_of_pos]
      have hskip : ∀ l, k0 ≠ k → getState ((k0, s0) :: l) k = getState l k := fun l hne => by
        simp [getState, List.find?_cons_of_neg, hne]
      rw [clearExpiredStates, List.filter_cons_of_pos (by simp [hexp])]
      by_cases hk : k0 = k
      · subst hk
        rw [hhit, hhit]
        simp [Option.filter, hexp]
      · rw [hskip _ hk, hskip _ hk]
        rw [hfilt, ih hndt]

/-- C9 witness: on a concrete one-entry store, a session created at 4 is
swept by a cutoff of 6 and `getState` subsequently returns absent, while
a session created at 6 survives. -/
theorem c9_clear_expired_creation_cutoff_witness :
    (List.map Prod.fst [("a", (⟨4, {}⟩ : SessionM))]).Nodup ∧
    getState (clearExpiredStates [("a", (⟨4, {}⟩ : SessionM))] 6) "a" = none ∧
    getState (clearExpiredStates [("a", (⟨6, {}⟩ : SessionM))] 6) "a" = some ⟨6, {}⟩ := by
  refine ⟨by decide, ?_, ?_⟩
  · rw [c9_clear_expired_creation_cutoff [("a", (⟨4, {}⟩ : SessionM))] 6 "a" (by decide)]
    rfl
  · rw [c9_clear_expired_creation_cutoff [("a", (⟨6, {}⟩ : SessionM))] 6 "a" (by decide)]
    rfl

/-- C9 counterexample: the claim says a session with
`created_at + ttl == now + 1` is retained by `clearExpiredStates(now)`.
With `created_at = 5`, `ttl = 2`, `now = 6` we have
`created_at + ttl = now + 1`, yet the session is removed — the store
sweeps by creation time alone and consults no time-to-live. -/
theorem c9_clear_expired_counterexample :
    5 + 2 = 6 + 1 ∧
    getState (clearExpiredStates (setState [] "k" ⟨5, {}⟩) 6) "k" = none := by
  refine ⟨rfl, rfl⟩

/-- C10: a draft-8 conversion of a `jwt_vc_json` / `jwt_vc` request
whose non-empty `types` contain only `VerifiableCredential` does not
fail: the emptiness check precedes the filter, the filter then removes
every element, and the draft-8 `type` field is the head of the empty
filtered list, i.e. JavaScript `undefined` (`none`). -/
theorem c10_filter_then_index_yields_undefined
    (formatFor : String → OpenId4VCIVersion → String)
    (req : UniformCredentialRequestM)
    (hfmt : req.format = "jwt_vc_json" ∨ req.format = "jwt_vc")
    (hne : req.types ≠ [])
    (hall : ∀ t ∈ req.types, t = "VerifiableCredential") :
    getCredentialRequestForVersion formatFor req OpenId4VCIVersion.ver_1_0_08 =
      .ok (.inr ⟨formatFor req.format OpenId4VCIVersion.ver_1_0_08, req.proof, none⟩) := by
  have htypes : getTypesFromRequest req true = .ok [] := by
    rw [getTypesFromRequest]
    have hsel : (if req.format == "jwt_vc_json" || req.format == "jwt_vc" then req.types
        else if req.format == "jwt_vc_json-ld" || req.format == "ldp_vc" then
          req.credential_definition_types
        else if req.format == "vc+sd-jwt" then [req.credential_definition_vct]
        else []) = req.types := by
      rcases hfmt with h | h <;> rw [h] <;> rfl
    rw [hsel, if_neg (by simp [List.isEmpty_iff, hne]), if_pos rfl]
    have hfilter : req.types.filter (fun t => t != "VerifiableCredential") = [] := by
      rw [List.filter_eq_nil_iff]
      intro a ha
      simp [hall a ha]
    rw [hfilter]
  rw [getCredentialRequestForVersion, if_pos rfl]
  rw [show (do
      let types ← getTypesFromRequest req true
      pure (Sum.inr ⟨formatFor req.format OpenId4VCIVersion.ver_1_0_08, req.proof, types.head?⟩) :
      Except String (UniformCredentialRequestM ⊕ CredentialRequestV1_0_08M)) =
    (getTypesFromRequest req true).bind (fun types =>
      .ok (Sum.inr ⟨formatFor req.format OpenId4VCIVersion.ver_1_0_08, req.proof,
        types.head?⟩)) from rfl]
  rw [htypes]
  rfl

/-- C10 witness: a concrete request of format `jwt_vc_json` whose types
are exactly `[VerifiableCredential]` converts to a draft-8 request with
an absent `type`. -/
theorem c10_filter_then_index_yields_undefined_witness :
    getCredentialRequestForVersion (fun f _ => f)
        { format := "jwt_vc_json", types := ["VerifiableCredential"] }
        OpenId4VCIVersion.ver_1_0_08 =
      .ok (.inr ⟨"jwt_vc_json", none, none⟩) := by
  exact c10_filter_then_index_yields_undefined (fun f _ => f)
    { format := "jwt_vc_json", types := ["VerifiableCredential"] }
    (Or.inl rfl) (by simp) (by simp)

/-- C5 (amended): a token whose header kid starts with `did:` and
contains `#` resolves — by auto-detection and by the explicit did path —
to the `Did` verifier carrying the kid as `didUrl`; a non-empty kid
lacking `#` makes the did path fail with the bad-kid error; but a kid
that does not start with `did:` makes auto-detection fall through (with
no `x5c` or `jwk` header it succeeds with the `custom` verifier), so a
token whose kid lacks `#` does not universally fail. -/
theorem c5_did_detection_amended
    (digestAlg : String → Option String) (calcThumbprint : JsonValue → String → String)
    (header : JwtHeaderM) (payload : JwtPayloadM) (type : JwtType) (k : String)
    (hkid : header.kid = some k) (hdid : jsStartsWith k "did:" = true)
    (hhash : strContainsChar k '#' = true) :
    getJwtVerifierWithContext digestAlg calcThumbprint header payload type =
      .ok (.did type k) ∧
    getDidJwtVerifier header type = .ok (.did type k) ∧
    (∀ k2 : String, strContainsChar k2 '#' = false → k2 ≠ "" →
      getDidJwtVerifier { header with kid := some k2 } type = .error .invalidJwtBadKid) ∧
    (∀ k2 : String, jsStartsWith k2 "did:" = false →
      getJwtVerifierWithContext digestAlg calcThumbprint { kid := some k2 } payload type =
        .ok (.custom type)) := by
  have hdidv : getDidJwtVerifier header type = .ok (.did type k) := by
    rw [getDidJwtVerifier, hkid]
    dsimp only
    rw [if_neg (by simp [beq_empty_false_of_jsStartsWith_did hdid]),
      if_neg (by simp [hhash])]
  refine ⟨?_, hdidv, ?_, ?_⟩
  · rw [getJwtVerifierWithContext, hkid]
    dsimp only [Option.getD, Option.isSome]
    rw [if_pos (by simp [hdid])]
    exact hdidv
  · intro k2 hno hne
    rw [getDidJwtVerifier]
    dsimp only
    rw [if_neg (by simp [hne]), if_pos (by simp [hno])]
  · intro k2 hnd
    rw [getJwtVerifierWithContext]
    dsimp only [Option.getD, Option.isSome]
    rw [if_neg (by simp [hnd])]
    dsimp only [optTruthy]
    rw [if_neg (by simp), if_neg (by simp)]

/-- C5 witness: the kid `did:ex:1#k` resolves to the `Did` verifier both
ways; the kid `did:ex:1` (no `#`) fails the did path with the bad-kid
error; the kid `abc` auto-detects to the custom verifier. -/
theorem c5_did_detection_amended_witness :
    getJwtVerifierWithContext (fun _ => none) (fun _ _ => "")
        { kid := some "did:ex:1#k" } {} .requestObject =
      .ok (.did .requestObject "did:ex:1#k") ∧
    getDidJwtVerifier { kid := some "did:ex:1#k" } .requestObject =
      .ok (.did .requestObject "did:ex:1#k") ∧
    getDidJwtVerifier { kid := some "did:ex:1" } .requestObject =
      .error .invalidJwtBadKid ∧
    getJwtVerifierWithContext (fun _ => none) (fun _ _ => "")
        { kid := some "abc" } {} .requestObject = .ok (.custom .requestObject) := by
  obtain ⟨h1, h2, h3, h4⟩ := c5_did_detection_amended (fun _ => none) (fun _ _ => "")
    { kid := some "did:ex:1#k" } {} .requestObject "did:ex:1#k" rfl (by decide) (by decide)
  exact ⟨h1, h2, h3 "did:ex:1" (by decide) (by decide), h4 "abc" (by decide)⟩

/-- C5 counterexample: the claim says every token whose kid lacks `#`
fails resolution; the kid `abc` has no `#`, yet both the request-object
path with no declared scheme and plain auto-detection succeed with the
`custom` verifier. -/
theorem c5_no_hash_resolution_counterexample :
    strContainsChar "abc" '#' = false ∧
    getRequestObjectJwtVerifier (fun _ => none) (fun _ _ => "") (fun _ => none)
        { kid := some "abc" } {} "r" = .ok (.custom .requestObject) ∧
    getJwtVerifierWithContext (fun _ => none) (fun _ _ => "")
        { kid := some "abc" } {} .idToken = .ok (.custom .idToken) := ⟨rfl, rfl, rfl⟩

/-- C6 (amended): for a parsed verifier attestation, each of the
header-`typ`, `sub`, `iss` and `exp` checks fails with the
bad-verifier-attestation error; a `cnf` whose JavaScript typeof is not
`object` does too; but a `null` `cnf` passes the typeof check (JavaScript
`typeof null` is `object`) and the subsequent `cnf['jwk']` property
access raises a raw TypeError instead of the bad-verifier-attestation
error; a non-object nested `jwk` fails with bad-verifier-attestation; on
success the `Jwk` verifier carries the nested `cnf.jwk` with type
request-object; a declared truthy `redirect_uris` must be an array of
strings containing the outer `redirect_uri`, else the
bad-redirect-uris error is raised. -/
theorem c6_verifier_attestation_amended (clientId : String)
    (redirectUri : Option String) (att : ParsedJwt) :
    (att.typ ≠ some verifierAttestationSubtype →
      validateVerifierAttestation clientId redirectUri att =
        .error .badVerifierAttestation) ∧
    (att.typ = some verifierAttestationSubtype →
      jsEqString (jsGetField att.payload "sub") clientId = false →
      validateVerifierAttestation clientId redirectUri att =
        .error .badVerifierAttestation) ∧
    (att.typ = some verifierAttestationSubtype →
      jsEqString (jsGetField att.payload "sub") clientId = true →
      ((jsGetField att.payload "iss").truthy &&
        (jsGetField att.payload "iss").jsTypeof == "string") = false →
      validateVerifierAttestation clientId redirectUri att =
        .error .badVerifierAttestation) ∧
    (att.typ = some verifierAttestationSubtype →
      jsEqString (jsGetField att.payload "sub") clientId = true →
      ((jsGetField att.payload "iss").truthy &&
        (jsGetField att.payload "iss").jsTypeof == "string") = true →
      ((jsGetField att.payload "exp").truthy &&
        (jsGetField att.payload "exp").jsTypeof == "number") = false →
      validateVerifierAttestation clientId redirectUri att =
        .error .badVerifierAttestation) ∧
    (att.typ = some verifierAttestationSubtype →
      jsEqString (jsGetField att.payload "sub") clientId = true →
      ((jsGetField att.payload "iss").truthy &&
        (jsGetField att.payload "iss").jsTypeof == "string") = true →
      ((jsGetField att.payload "exp").truthy &&
        (jsGetField att.payload "exp").jsTypeof == "number") = true →
      (jsGetField att.payload "cnf").jsTypeof ≠ "object" →
      validateVerifierAttestation clientId redirectUri att =
        .error .badVerifierAttestation) ∧
    (att.typ = some verifierAttestationSubtype →
      jsEqString (jsGetField att.payload "sub") clientId = true →
      ((jsGetField att.payload "iss").truthy &&
        (jsGetField att.payload "iss").jsTypeof == "string") = true →
      ((jsGetField att.payload "exp").truthy &&
        (jsGetField att.payload "exp").jsTypeof == "number") = true →
      jsGetField att.payload "cnf" = .null →
      validateVerifierAttestation clientId redirectUri att = .error .jsTypeError) ∧
    (att.typ = some verifierAttestationSubtype →
      jsEqString (jsGetField att.payload "sub") clientId = true →
      ((jsGetField att.payload "iss").truthy &&
        (jsGetField att.payload "iss").jsTypeof == "string") = true →
      ((jsGetField att.payload "exp").truthy &&
        (jsGetField att.payload "exp").jsTypeof == "number") = true →
      ∀ fs, jsGetField att.payload "cnf" = .obj fs →
        ((jsGetField fs "jwk").jsTypeof ≠ "object" →
          validateVerifierAttestation clientId redirectUri att =
            .error .badVerifierAttestation) ∧
        (∀ jfs, jsGetField fs "jwk" = .obj jfs →
          ((jsGetField att.payload "redirect_uris").truthy = false →
            validateVerifierAttestation clientId redirectUri att =
              .ok (.jwk .requestObject (.obj jfs) none)) ∧
          ((jsGetField att.payload "redirect_uris").truthy = true →
            (asStringList (jsGetField att.payload "redirect_uris") = none →
              validateVerifierAttestation clientId redirectUri att =
                .error .badVerifierAttestationRedirectUris) ∧
            (∀ uris, asStringList (jsGetField att.payload "redirect_uris") = some uris →
              (redirectUri = none →
                validateVerifierAttestation clientId redirectUri att =
                  .error .badVerifierAttestationRedirectUris) ∧
              (∀ r, redirectUri = some r → (r = "" ∨ uris.contains r = false) →
                validateVerifierAttestation clientId redirectUri att =
                  .error .badVerifierAttestationRedirectUris) ∧
              (∀ r, redirectUri = some r → r ≠ "" → uris.contains r = true →
                validateVerifierAttestation clientId redirectUri att =
                  .ok (.jwk .requestObject (.obj jfs) none)))))) := by
  refine ⟨?_, ?_, ?_, ?_, ?_, ?_, ?_⟩
  · intro h
    rw [validateVerifierAttestation, if_pos (by simp [h])]
    rfl
  · intro htyp h
    rw [validateVerifierAttestation, if_neg (by simp [htyp]), if_pos (by simp [h])]
    rfl
  · intro htyp hsub h
    rw [validateVerifierAttestation, if_neg (by simp [htyp]), if_neg (by simp [hsub]),
      if_pos (by simp [h])]
    rfl
  · intro htyp hsub hiss h
    rw [validateVerifierAttestation, if_neg (by simp [htyp]), if_neg (by simp [hsub]),
      if_neg (by simp [hiss]), if_pos (by simp [h])]
    rfl
  · intro htyp hsub hiss hexp h
    rw [validateVerifierAttestation, if_neg (by simp [htyp]), if_neg (by simp [hsub]),
      if_neg (by simp [hiss]), if_neg (by simp [hexp]), if_pos (by simp [h])]
    rfl
  · intro htyp hsub hiss hexp hcnf
    rw [validateVerifierAttestation_after_checks clientId redirectUri att htyp hsub hiss hexp
      (by rw [hcnf]; rfl)]
    rw [hcnf]
    rfl
  · intro htyp hsub hiss hexp fs hcnf
    have hred := validateVerifierAttestation_after_checks clientId redirectUri att htyp hsub
      hiss hexp (by rw [hcnf]; rfl)
    rw [hcnf] at hred
    have hprop : jsGetProp (JsonValue.obj fs) "jwk" = .ok (jsGetField fs "jwk") := rfl
    rw [hprop] at hred
    dsimp only at hred
    refine ⟨?_, ?_⟩
    · intro hj
      rw [hred, if_pos (by simp [hj])]
    · intro jfs hjfs
      rw [hjfs] at hred
      rw [if_neg (by simp [JsonValue.jsTypeof])] at hred
      refine ⟨?_, ?_⟩
      · intro hru
        rw [hred, if_neg (by simp [hru])]
      · intro hru
        rw [if_pos (by simp [hru])] at hred
        refine ⟨?_, ?_⟩
        · intro hsl
          rw [hred, hsl]
        · intro uris hsl
          rw [hsl] at hred
          dsimp only at hred
          refine ⟨?_, ?_, ?_⟩
          · intro hr
            subst hr
            dsimp only at hred
            exact hred
          · intro r hr hbad
            subst hr
            dsimp only at hred
            rcases hbad with h | h
            · rw [hred, if_pos (by simp [h])]
            · by_cases hr0 : r = ""
              · rw [hred, if_pos (by simp [hr0])]
              · rw [hred, if_neg (by simp [hr0]), if_pos (by rw [h]; rfl)]
          · intro r hr hne hmem
            subst hr
            dsimp only at hred
            rw [hred, if_neg (by simp [hne]), if_neg (by rw [hmem]; decide)]

/-- C6 witness: a fully well-formed attestation resolves to the `Jwk`
verifier carrying the nested `cnf.jwk`; one declaring a matching
`redirect_uris` allowlist does too; one with a wrong header typ fails
with the bad-verifier-attestation error. -/
theorem c6_verifier_attestation_amended_witness :
    validateVerifierAttestation "c" none
        ⟨some verifierAttestationSubtype,
         [("sub", .str "c"), ("iss", .str "i"), ("exp", .num 5),
          ("cnf", .obj [("jwk", .obj [("kty", .str "EC")])])]⟩ =
      .ok (.jwk .requestObject (.obj [("kty", .str "EC")]) none) ∧
    validateVerifierAttestation "c" (some "https:a")
        ⟨some verifierAttestationSubtype,
         [("sub", .str "c"), ("iss", .str "i"), ("exp", .num 5),
          ("cnf", .obj [("jwk", .obj [("kty", .str "EC")])]),
          ("redirect_uris", .arr [.str "https:a"])]⟩ =
      .ok (.jwk .requestObject (.obj [("kty", .str "EC")]) none) ∧
    validateVerifierAttestation "c" none ⟨none, [("sub", .str "c")]⟩ =
      .error .badVerifierAttestation := by
  refine ⟨?_, ?_, ?_⟩
  · exact ((((c6_verifier_attestation_amended "c" none
      ⟨some verifierAttestationSubtype,
       [("sub", .str "c"), ("iss", .str "i"), ("exp", .num 5),
        ("cnf", .obj [("jwk", .obj [("kty", .str "EC")])])]⟩).2.2.2.2.2.2
      rfl rfl rfl rfl [("jwk", .obj [("kty", .str "EC")])] rfl).2
      [("kty", .str "EC")] rfl).1 rfl)
  · exact (((((c6_verifier_attestation_amended "c" (some "https:a")
      ⟨some verifierAttestationSubtype,
       [("sub", .str "c"), ("iss", .str "i"), ("exp", .num 5),
        ("cnf", .obj [("jwk", .obj [("kty", .str "EC")])]),
        ("redirect_uris", .arr [.str "https:a"])]⟩).2.2.2.2.2.2
      rfl rfl rfl rfl [("jwk", .obj [("kty", .str "EC")])] rfl).2
      [("kty", .str "EC")] rfl).2 rfl).2 ["https:a"] rfl).2.2 "https:a" rfl
      (by decide) rfl
  · exact (c6_verifier_attestation_amended "c" none
      ⟨none, [("sub", .str "c")]⟩).1 (by decide)


/-- C6 counterexample: the claim says a `cnf` that is not an object
containing an object `jwk` fails with the bad-verifier-attestation
error; yet with `cnf = null` — which satisfies every earlier check —
validation raises the raw TypeError of the `cnf['jwk']` property access,
a different failure. -/
theorem c6_cnf_null_counterexample :
    validateVerifierAttestation "c" none
        ⟨some verifierAttestationSubtype,
         [("sub", .str "c"), ("iss", .str "i"), ("exp", .num 5), ("cnf", .null)]⟩ =
      .error .jsTypeError ∧
    SIOPError.jsTypeError ≠ SIOPError.badVerifierAttestation := ⟨rfl, by decide⟩

/-- C7: building an offer with `preAuthorizedCode = "abc"` and no
`txCode`, from a supplied payload with an empty or absent grants map (or
from issuer metadata, whose synthesized payload has no grants), yields
exactly the single-entry pre-authorized-code grants map, with no
`authorization_code` grant. -/
theorem c7_preauthorized_offer_grants (freshId1 freshId2 : String)
    (metadata : Option IssuerMetadataM) (opts : OfferOpts) (r : OfferResult)
    (hpre : opts.preAuthorizedCode = some "abc") (htx : opts.txCode = none)
    (hbase : ∀ co, opts.credentialOffer = some co →
      co.grants = none ∨ co.grants = some ⟨none, none⟩)
    (hok : createCredentialOfferObject freshId1 freshId2 metadata opts = .ok r) :
    r.grants = ⟨none, some ⟨"abc", none⟩⟩ := by
  obtain ⟨base, hsrc, _, hg⟩ :=
    createCredentialOfferObject_ok_grants freshId1 freshId2 metadata opts r hok
  have hbg : base.grants = none ∨ base.grants = some ⟨none, none⟩ := by
    rcases hsrc with h | ⟨_, h⟩
    · exact hbase base h
    · exact Or.inl h
  rw [hg, applyGrants_twice_preAuth freshId1 freshId2 opts base (by simp [hpre, strTruthy])]
  rcases hbg with h | h <;> rw [h] <;> simp [hpre, htx]

/-- C7 witness: a concrete build from a bare payload. -/
theorem c7_preauthorized_offer_grants_witness :
    ∃ r, createCredentialOfferObject "u1" "u2" none
        { credentialOffer := some {}, preAuthorizedCode := some "abc" } = .ok r ∧
      r.grants = ⟨none, some ⟨"abc", none⟩⟩ := by
  have hok0 : createCredentialOfferObject "u1" "u2" none
      { credentialOffer := some {}, preAuthorizedCode := some "abc" } =
      Except.ok
        { credential_offer :=
            { grants := some (Grants.mk none (some (PreAuthorizedCodeGrant.mk "abc" none))) },
          credential_offer_uri := none, scheme := "openid-credential-offer", baseUri := "",
          grants := Grants.mk none (some (PreAuthorizedCodeGrant.mk "abc" none)) } := rfl
  exact ⟨_, hok0, c7_preauthorized_offer_grants "u1" "u2" none
    { credentialOffer := some {}, preAuthorizedCode := some "abc" } _
    rfl rfl (fun co hco => by simp at hco; rw [← hco]; exact Or.inl rfl) hok0⟩

/-- C8: for every offer serialized in the `credential_offer=<encoded>`
form (a proper-JSON payload supplied and no `credential_offer_uri` set),
the produced URI ends in the url-encoded `JSON.stringify` of the
payload, and url-decoding that query value and JSON-parsing it
reproduces the original payload exactly. -/
theorem c8_offer_uri_roundtrip (offer : OfferUriInput) (opts : UriOpts) (v : JsonValue)
    (uri : String)
    (hco : offer.credential_offer = some v) (hpure : pureJson v = true)
    (hnouri : strTruthy offer.credential_offer_uri = false)
    (hok : createCredentialOfferURIFromObject offer opts = .ok uri) :
    ∃ head : String,
      uri = head ++ "?credential_offer=" ++ encodeURIComponent (jsonStringify v) ∧
      decodeURIComponent (encodeURIComponent (jsonStringify v)) = some (jsonStringify v) ∧
      jsonParse (jsonStringify v) = some v := by
  rw [createCredentialOfferURIFromObject] at hok
  simp only [] at hok
  split at hok <;>
  · split at hok
    · exact absurd hok (by simp)
    · rw [if_neg (by simp [hnouri]), hco] at hok
      simp only [Except.ok.injEq] at hok
      exact ⟨_, hok.symm, decodeURIComponent_encodeURIComponent (jsonStringify v),
        jsonParse_jsonStringify v hpure⟩

/-- C8 witness: the concrete offer payload `{"a":"b"}` serializes to a
URI whose query value decodes and parses back to the payload. -/
theorem c8_offer_uri_roundtrip_witness :
    pureJson (.obj [("a", .str "b")]) = true ∧
    ∃ uri, createCredentialOfferURIFromObject
        { credential_offer := some (.obj [("a", .str "b")]) } {} = .ok uri ∧
      ∃ head : String,
        uri = head ++ "?credential_offer=" ++
          encodeURIComponent (jsonStringify (.obj [("a", .str "b")])) ∧
        decodeURIComponent (encodeURIComponent (jsonStringify (.obj [("a", .str "b")]))) =
          some (jsonStringify (.obj [("a", .str "b")])) ∧
        jsonParse (jsonStringify (.obj [("a", .str "b")])) = some (.obj [("a", .str "b")]) := by
  refine ⟨rfl, _, rfl, ?_⟩
  exact c8_offer_uri_roundtrip { credential_offer := some (.obj [("a", .str "b")]) } {}
    (.obj [("a", .str "b")]) _ rfl rfl rfl rfl

end OID4VCI
